import Mathlib

/-!
# Bug tracker: lifecycle engine and reports

A shallow embedding of `src/controllers/bugController.js`, `src/config/email.js`,
`src/middleware/validation.js` and `src/controllers/reportController.js`.

* The relational store is a record of row lists. Every `pool.query` is a total function on it:
  connection failures and constraint violations, which the controllers turn into HTTP 500 in
  their `catch` blocks, are outside the model.
* `NOW()`, the mail transport and `Date.prototype.toString` are capabilities of the environment
  and are passed in as `Env`.
* Request bodies are JavaScript objects: association lists from property names to `JSValue`.
-/

set_option autoImplicit false

namespace BugTracker

/-! ## JavaScript values -/

/-- The JavaScript values that reach the controllers: what `express.json()` parses from a request
body (numbers are the integers; arrays, nested objects and fractions are rejected by every field
of the schemas and are not represented), `undefined` for a property that is absent, and the
`Date` objects the store driver returns for timestamp columns. -/
inductive JSValue where
  | undefined
  | null
  | bool (b : Bool)
  | num (n : Int)
  | str (s : String)
  | date (t : Int)
  deriving DecidableEq, Repr

namespace JSValue

/-- JavaScript `a === b`. Primitives compare by type and value; a `Date` is an object and is
compared by reference, and no request value shares a reference with a row read from the store. -/
def strictEq : JSValue → JSValue → Bool
  | .undefined, .undefined => true
  | .null, .null => true
  | .bool a, .bool b => a == b
  | .num a, .num b => a == b
  | .str a, .str b => a == b
  | _, _ => false

/-- JavaScript `a !== b`. -/
def strictNe (a b : JSValue) : Bool := !(strictEq a b)

/-- JavaScript truthiness (`ToBoolean`). -/
def truthy : JSValue → Bool
  | .undefined => false
  | .null => false
  | .bool b => b
  | .num n => n != 0
  | .str s => s != ""
  | .date _ => true

/-- JavaScript `a || b`. -/
def or (a b : JSValue) : JSValue := if a.truthy then a else b

/-- JavaScript `String(v)`; `dateString` is `Date.prototype.toString`. Integers print in decimal,
as JavaScript prints every integer in the safe range. -/
def toJSString (dateString : Int → String) : JSValue → String
  | .undefined => "undefined"
  | .null => "null"
  | .bool b => if b then "true" else "false"
  | .num n => toString n
  | .str s => s
  | .date t => dateString t

/-- A value that JSON can carry: anything but `undefined` and `Date`. -/
def isJSON : JSValue → Bool
  | .undefined => false
  | .date _ => false
  | _ => true

end JSValue

/-- A request body (`req.body`): the properties of a parsed JSON object, in insertion order. -/
abbrev Body := List (String × JSValue)

/-- Property read `o[k]`: `undefined` when the object has no such property. -/
def Body.get (o : Body) (k : String) : JSValue :=
  match o.lookup k with
  | some v => v
  | none => .undefined

/-- The function `Object.keys(o)`. -/
def Object.keys (o : Body) : List String := o.map Prod.fst

/-! ## Rows of the store -/

/-- Modelled from the spec: the `bugs` table of `src/database/schema.sql`, which is missing. The
columns are those the data model names and the queries of the controllers read and write.
Timestamps are whole seconds. -/
structure Bug where
  id : Int
  title : String
  description : String
  priority : String
  severity : String
  status : String
  reporter_id : Int
  assigned_to : Option Int
  created_at : Int
  resolved_at : Option Int
  deriving DecidableEq, Repr

/-- Modelled from the spec: the `users` table of `src/database/schema.sql`, which is missing
(the password credential is never read by the modelled code). -/
structure User where
  id : Int
  name : String
  email : String
  role : String
  deriving DecidableEq, Repr

/-- A row of `bug_history`: the five columns the `INSERT` of `updateBug` names. -/
structure HistoryRow where
  bug_id : Int
  user_id : Int
  field_changed : String
  old_value : String
  new_value : String
  deriving DecidableEq, Repr

/-- Column read `row[field]` on a row of `bugs` as the store driver returns it. -/
def Bug.get (b : Bug) (field : String) : JSValue :=
  if field = "id" then .num b.id
  else if field = "title" then .str b.title
  else if field = "description" then .str b.description
  else if field = "priority" then .str b.priority
  else if field = "severity" then .str b.severity
  else if field = "status" then .str b.status
  else if field = "reporter_id" then .num b.reporter_id
  else if field = "assigned_to" then (match b.assigned_to with | some a => .num a | none => .null)
  else if field = "created_at" then .date b.created_at
  else if field = "resolved_at" then (match b.resolved_at with | some t => .date t | none => .null)
  else .undefined

/-! ## Mail (`src/config/email.js`) -/

/-- The argument of `sendEmail`. -/
structure Mail where
  /-- The option `to` (a keyword of Lean). -/
  recipient : String
  subject : String
  html : String
  deriving DecidableEq, Repr

/-- The environment of a request. -/
structure Env where
  /-- The value of `NOW()`, in seconds. -/
  now : Int
  /-- The call `transporter.sendMail`: a message id, or the message of the error it throws. -/
  sendMail : Mail → Except String String
  /-- The method `Date.prototype.toString`. -/
  dateString : Int → String

/-- A call of the controller into the mail module. -/
inductive Notification where
  | bugAssignment (bug : Bug) (developer : User)
  | bugStatusUpdate (bug : Bug) (reporter : User)
  deriving DecidableEq, Repr

/-- The message `sendBugAssignmentEmail(bug, developer)` hands to `sendEmail`. -/
def bugAssignmentMail (bug : Bug) (developer : User) : Mail :=
  { recipient := developer.email
    subject := "Bug Assigned: " ++ bug.title
    html := "\n    <h2>New Bug Assigned to You</h2>\n    <p><strong>Bug ID:</strong> "
      ++ toString bug.id ++ "</p>\n    <p><strong>Title:</strong> " ++ bug.title
      ++ "</p>\n    <p><strong>Priority:</strong> " ++ bug.priority
      ++ "</p>\n    <p><strong>Severity:</strong> " ++ bug.severity
      ++ "</p>\n    <p><strong>Description:</strong></p>\n    <p>" ++ bug.description
      ++ "</p>\n    <p>Please review and update the status accordingly.</p>\n  " }

/-- The message `sendBugStatusUpdateEmail(bug, reporter)` hands to `sendEmail`. -/
def bugStatusUpdateMail (bug : Bug) (reporter : User) : Mail :=
  { recipient := reporter.email
    subject := "Bug Status Updated: " ++ bug.title
    html := "\n    <h2>Your Bug Has Been Updated</h2>\n    <p><strong>Bug ID:</strong> "
      ++ toString bug.id ++ "</p>\n    <p><strong>Title:</strong> " ++ bug.title
      ++ "</p>\n    <p><strong>New Status:</strong> " ++ bug.status
      ++ "</p>\n    <p>Thank you for reporting this issue.</p>\n  " }

/-- The message a notification carries. -/
def Notification.mail : Notification → Mail
  | .bugAssignment bug developer => bugAssignmentMail bug developer
  | .bugStatusUpdate bug reporter => bugStatusUpdateMail bug reporter

/-- Whether the call is `sendBugAssignmentEmail`. -/
def Notification.isAssignment : Notification → Bool
  | .bugAssignment _ _ => true
  | .bugStatusUpdate _ _ => false

/-- Whether the call is `sendBugStatusUpdateEmail`. -/
def Notification.isStatusUpdate : Notification → Bool
  | .bugAssignment _ _ => false
  | .bugStatusUpdate _ _ => true

/-- The result object of `sendEmail`. -/
structure SendResult where
  success : Bool
  messageId : Option String
  error : Option String
  deriving DecidableEq, Repr

/-! ## The world: store, notifier trace and console -/

/-- The state the controllers act on. -/
structure World where
  bugs : List Bug
  users : List User
  bug_history : List HistoryRow
  /-- The calls made into the mail module, oldest first. -/
  sent : List Notification
  /-- The lines written by `console.log` and `console.error`, oldest first. -/
  console : List String
  deriving DecidableEq, Repr

/-- The function `sendEmail`: the `try` hands the message to the transport, the `catch` turns a
throw into a failure result. -/
def sendEmail (env : Env) (m : Mail) (w : World) : World × SendResult :=
  match env.sendMail m with
  | .ok messageId =>
    ({ w with console := w.console ++ ["✓ Email sent: " ++ messageId] },
     { success := true, messageId := some messageId, error := none })
  | .error message =>
    ({ w with console := w.console ++ ["✗ Email sending failed: " ++ message] },
     { success := false, messageId := none, error := some message })

/-- The function `sendBugAssignmentEmail`. -/
def sendBugAssignmentEmail (env : Env) (bug : Bug) (developer : User) (w : World) :
    World × SendResult :=
  sendEmail env (bugAssignmentMail bug developer)
    { w with sent := w.sent ++ [.bugAssignment bug developer] }

/-- The function `sendBugStatusUpdateEmail`. -/
def sendBugStatusUpdateEmail (env : Env) (bug : Bug) (reporter : User) (w : World) :
    World × SendResult :=
  sendEmail env (bugStatusUpdateMail bug reporter)
    { w with sent := w.sent ++ [.bugStatusUpdate bug reporter] }

/-- An HTTP response: `res.status(status).json(body)`, or `res.status(status).json({ error })`. -/
inductive Response (α : Type) where
  | ok (status : Nat) (body : α)
  | error (status : Nat) (error : String)
  deriving DecidableEq, Repr

/-! ## Validation (`src/middleware/validation.js`) -/

/-- The values `Joi.string().valid(...)` lists for `priority`. -/
def priorityValues : List String := ["low", "medium", "high", "critical"]

/-- The values `Joi.string().valid(...)` lists for `severity`. -/
def severityValues : List String := ["minor", "major", "critical"]

/-- The values `Joi.string().valid(...)` lists for `status`. -/
def statusValues : List String := ["open", "in_progress", "resolved", "closed", "reopened"]

/-- The largest integer `Joi.number()` takes for safe, `Number.MAX_SAFE_INTEGER`. -/
def maxSafeInteger : Int := 9007199254740991

/-- The natural number a non-empty string of decimal digits denotes. -/
def decimalNat (ds : List Char) : Option Nat :=
  if ds ≠ [] ∧ ds.all Char.isDigit = true then
    some (ds.foldl (fun n c => n * 10 + (c.toNat - 48)) 0)
  else none

/-- The integer a decimal numeral denotes: an optional `-`, then at least one digit. -/
def decimalInteger (s : String) : Option Int :=
  match s.toList with
  | '-' :: ds => (decimalNat ds).map fun n => -(n : Int)
  | ds => (decimalNat ds).map fun n => (n : Int)

/-- The rule of `schemas.updateBug` for one property. `Joi.number()` converts a numeric string
before it checks it, and `validate` keeps only the error of `schema.validate(req.body)`, so a
numeric string for `assigned_to` passes and reaches the controller as the string it is. Of the
numeric strings the decimal numerals are accepted here (Joi takes further spellings: a leading
`+`, a fraction part of zeros, an exponent, blanks around the number). A string length is its
number of UTF-16 code units, as JavaScript counts it; an unknown key is rejected, as
`Joi.object` does. -/
def schemas.updateBug.field (key : String) (value : JSValue) : Bool :=
  if key = "title" then
    (match value with | .str s => decide (3 ≤ s.utf16Length ∧ s.utf16Length ≤ 255) | _ => false)
  else if key = "description" then
    (match value with | .str s => decide (10 ≤ s.utf16Length) | _ => false)
  else if key = "priority" then
    (match value with | .str s => decide (s ∈ priorityValues) | _ => false)
  else if key = "severity" then
    (match value with | .str s => decide (s ∈ severityValues) | _ => false)
  else if key = "status" then
    (match value with | .str s => decide (s ∈ statusValues) | _ => false)
  else if key = "assigned_to" then
    (match value with
      | .num n => decide (-maxSafeInteger ≤ n ∧ n ≤ maxSafeInteger)
      | .str s =>
        (match decimalInteger s with
          | some n => decide (-maxSafeInteger ≤ n ∧ n ≤ maxSafeInteger)
          | none => false)
      | .null => true
      | _ => false)
  else false

/-- The schema `schemas.updateBug`: every property of the body passes the rule of its key (no
property is required). -/
def schemas.updateBug (body : Body) : Bool :=
  body.all fun p => schemas.updateBug.field p.1 p.2

/-! ## `updateBug` (`src/controllers/bugController.js`) -/

/-- One entry of the `SET` list the controller builds (`updates`, with its value in `params`). -/
inductive SetClause where
  /-- The entry `column = ?`, bound to `value`. -/
  | param (column : String) (value : JSValue)
  /-- The entry `resolved_at = NOW()`. -/
  | resolvedAtNow
  deriving DecidableEq, Repr

/-- A parameter bound to a text column. A string is stored as it is, and only strings get past
the update schema; the model stores any other value through its string form. -/
def sqlText (env : Env) (v : JSValue) : String := v.toJSString env.dateString

/-- A parameter bound to, or compared with, an integer column. An integer is itself, `null` is
`NULL` and a decimal numeral is cast to the integer it denotes, the cases the schemas admit; the
model takes any other value for `NULL`. -/
def sqlInt : JSValue → Option Int
  | .num n => some n
  | .str s => decimalInteger s
  | _ => none

/-- The effect of one `SET` entry on a row. -/
def SetClause.apply (env : Env) (b : Bug) : SetClause → Bug
  | .param column value =>
    if column = "title" then { b with title := sqlText env value }
    else if column = "description" then { b with description := sqlText env value }
    else if column = "priority" then { b with priority := sqlText env value }
    else if column = "severity" then { b with severity := sqlText env value }
    else if column = "status" then { b with status := sqlText env value }
    else if column = "assigned_to" then { b with assigned_to := sqlInt value }
    else b
  | .resolvedAtNow => { b with resolved_at := some env.now }

/-- The `SET` list `updateBug` builds from the body (lines 150 to 180). -/
def updateBug.updates (body : Body) : List SetClause :=
  let title := body.get "title"
  let description := body.get "description"
  let priority := body.get "priority"
  let severity := body.get "severity"
  let status := body.get "status"
  let assigned_to := body.get "assigned_to"
  (if title.strictNe .undefined then [SetClause.param "title" title] else [])
  ++ (if description.strictNe .undefined then [SetClause.param "description" description] else [])
  ++ (if priority.strictNe .undefined then [SetClause.param "priority" priority] else [])
  ++ (if severity.strictNe .undefined then [SetClause.param "severity" severity] else [])
  ++ (if status.strictNe .undefined then
        [SetClause.param "status" status]
        ++ (if status.strictEq (.str "resolved") then [SetClause.resolvedAtNow] else [])
      else [])
  ++ (if assigned_to.strictNe .undefined then
        [SetClause.param "assigned_to" (assigned_to.or .null)]
      else [])

/-- The query `SELECT * FROM bugs WHERE id = ?`. -/
def selectBug (w : World) (id : Int) : List Bug := w.bugs.filter fun b => b.id = id

/-- The query `SELECT * FROM users WHERE id = ?`. -/
def selectUser (w : World) (id : JSValue) : List User :=
  match sqlInt id with
  | some n => w.users.filter fun u => u.id = n
  | none => []

/-- The query `UPDATE bugs SET ... WHERE id = ?`. -/
def updateBugs (env : Env) (updates : List SetClause) (id : Int) (w : World) : World :=
  { w with bugs := w.bugs.map fun b =>
      if b.id = id then updates.foldl (SetClause.apply env) b else b }

/-- The query `INSERT INTO bug_history (...) VALUES (?, ?, ?, ?, ?)`. -/
def insertHistory (r : HistoryRow) (w : World) : World :=
  { w with bug_history := w.bug_history ++ [r] }

/-- One turn of the loop over `Object.keys(req.body)` (lines 190 to 197): the snapshot
`currentBug[0]` is compared with the body, and a differing field is logged. -/
def updateBug.logField (env : Env) (id user_id : Int) (current : Bug) (body : Body)
    (w : World) (field : String) : World :=
  if (current.get field).strictNe (body.get field) then
    insertHistory
      { bug_id := id
        user_id := user_id
        field_changed := field
        old_value := ((current.get field).or (.str "")).toJSString env.dateString
        new_value := ((body.get field).or (.str "")).toJSString env.dateString } w
  else w

/-- The assignment notification (lines 202 to 207). -/
def updateBug.notifyAssignment (env : Env) (body : Body) (current updated : Bug) (w : World) :
    World :=
  let assigned_to := body.get "assigned_to"
  if assigned_to.truthy && assigned_to.strictNe (current.get "assigned_to") then
    match selectUser w assigned_to with
    | [] => w
    | developer :: _ => (sendBugAssignmentEmail env updated developer w).1
  else w

/-- The status notification (lines 209 to 214). -/
def updateBug.notifyStatus (env : Env) (body : Body) (current updated : Bug) (w : World) :
    World :=
  let status := body.get "status"
  if status.truthy && status.strictNe (current.get "status") then
    match selectUser w (.num current.reporter_id) with
    | [] => w
    | reporter :: _ => (sendBugStatusUpdateEmail env updated reporter w).1
  else w

/-- The function `updateBug`: `id` is `req.params.id`, `body` is `req.body` and `user_id` is
`req.user.id`. The result is the world after the request and the response. -/
def updateBug (env : Env) (id : Int) (body : Body) (user_id : Int) (w : World) :
    World × Response Bug :=
  -- Get current bug state
  match selectBug w id with
  | [] => (w, .error 404 "Bug not found")
  | current :: _ =>
    let updates := updateBug.updates body
    if updates.length = 0 then (w, .error 400 "No updates provided")
    else
      let w1 := updateBugs env updates id w
      -- Log changes in history
      let w2 := (Object.keys body).foldl (updateBug.logField env id user_id current body) w1
      -- Send email notifications
      match selectBug w2 id with
      | [] =>
        -- not reached: the `UPDATE` keeps the row that was found
        (w2, .error 500 "Cannot read properties of undefined")
      | updated :: _ =>
        let w3 := updateBug.notifyAssignment env body current updated w2
        let w4 := updateBug.notifyStatus env body current updated w3
        (w4, .ok 200 updated)

/-- The fields `updateBug` destructures from the body. -/
def updateBug.fields : List String :=
  ["title", "description", "priority", "severity", "status", "assigned_to"]

/-- The history row the loop of `updateBug` inserts for `field`. -/
def updateBug.historyRow (env : Env) (id user_id : Int) (current : Bug) (body : Body)
    (field : String) : HistoryRow :=
  { bug_id := id
    user_id := user_id
    field_changed := field
    old_value := ((current.get field).or (.str "")).toJSString env.dateString
    new_value := ((body.get field).or (.str "")).toJSString env.dateString }

/-- The world of a result. -/
abbrev world {α : Type} (r : World × Response α) : World := r.1

/-- The response of a result. -/
abbrev response {α : Type} (r : World × Response α) : Response α := r.2

/-- The notifications `notifyAssignment` sends. -/
def updateBug.assignmentSent (body : Body) (current updated : Bug) (w : World) :
    List Notification :=
  if (body.get "assigned_to").truthy
      && (body.get "assigned_to").strictNe (current.get "assigned_to") then
    match selectUser w (body.get "assigned_to") with
    | [] => []
    | developer :: _ => [.bugAssignment updated developer]
  else []

/-- The notifications `notifyStatus` sends. -/
def updateBug.statusSent (body : Body) (current updated : Bug) (w : World) :
    List Notification :=
  if (body.get "status").truthy && (body.get "status").strictNe (current.get "status") then
    match selectUser w (.num current.reporter_id) with
    | [] => []
    | reporter :: _ => [.bugStatusUpdate updated reporter]
  else []

/-- The row `updateBug` reloads: the `SET` list applied to the snapshot. -/
def updateBug.updated (env : Env) (body : Body) (current : Bug) : Bug :=
  (updateBug.updates body).foldl (SetClause.apply env) current

/-- The world after the `UPDATE` and the history loop. -/
def updateBug.logged (env : Env) (id : Int) (body : Body) (user_id : Int) (current : Bug)
    (w : World) : World :=
  (Object.keys body).foldl (updateBug.logField env id user_id current body)
    (updateBugs env (updateBug.updates body) id w)

/-! ## `createBug` (`src/controllers/bugController.js`) -/

/-- Modelled from the spec: the values the `bugs` table of `src/database/schema.sql`, which is
missing, gives to the columns an `INSERT` does not name. A new bug has status `open`, no
assignee, the current time as created timestamp and no resolved timestamp; `id` is the key the
store assigns. The columns the `INSERT` of `createBug` names are left empty here. -/
def Bug.inserted (env : Env) (id : Int) : Bug :=
  { id := id, title := "", description := "", priority := "", severity := "", status := "open"
    reporter_id := 0, assigned_to := none, created_at := env.now, resolved_at := none }

/-- The query `INSERT INTO bugs (title, description, priority, severity, reporter_id) VALUES
(?, ?, ?, ?, ?)`; `insertId` is the key the store assigns to the new row. -/
def insertBug (env : Env) (insertId : Int) (title description priority severity : JSValue)
    (reporter_id : Int) (w : World) : World :=
  { w with bugs := w.bugs ++
      [{ Bug.inserted env insertId with
          title := sqlText env title
          description := sqlText env description
          priority := sqlText env priority
          severity := sqlText env severity
          reporter_id := reporter_id }] }

/-- The function `createBug`: `body` is `req.body`, `reporter_id` is `req.user.id` and `insertId`
is `result.insertId`. The body of the response is `newBug[0]`, which is `undefined` (`none`) when
the reload finds no row. -/
def createBug (env : Env) (insertId : Int) (body : Body) (reporter_id : Int) (w : World) :
    World × Response (Option Bug) :=
  let title := body.get "title"
  let description := body.get "description"
  let priority := body.get "priority"
  let severity := body.get "severity"
  let w1 := insertBug env insertId title description (priority.or (.str "medium"))
    (severity.or (.str "major")) reporter_id w
  let newBug := selectBug w1 insertId
  (w1, .ok 201 newBug.head?)

/-! ## Reports (`src/controllers/reportController.js`) -/

/-- The SQL function `TIMESTAMPDIFF(HOUR, a, b)`: the whole hours from `a` to `b`, the quotient
truncated toward zero. -/
def timestampDiffHour (a b : Int) : Int := (b - a).tdiv 3600

/-- The join `LEFT JOIN users u ON key = u.id` seen from one row of `bugs`: the users the key
matches, or a single `NULL` row when it matches none. -/
def leftJoinUsers (w : World) (key : Option Int) : List (Option User) :=
  match w.users.filter (fun u => key = some u.id) with
  | [] => [none]
  | us => us.map some

/-- A row of the SLA report: `b.*`, the two joined names and `hours_open`. -/
structure SLARow where
  bug : Bug
  reporter_name : Option String
  assigned_to_name : Option String
  hours_open : Int
  deriving DecidableEq, Repr

/-- The `WHERE` clause of `getSLAViolations` (lines 108 to 112). -/
def getSLAViolations.condition (env : Env) (b : Bug) : Bool :=
  (b.status == "open" || b.status == "in_progress")
    && ((b.priority == "critical" && decide (timestampDiffHour b.created_at env.now > 24))
      || (b.priority == "high" && decide (timestampDiffHour b.created_at env.now > 48)))

/-- The `FROM` clause of `getSLAViolations` with its select list (lines 100 to 107). -/
def getSLAViolations.joined (env : Env) (w : World) : List SLARow :=
  w.bugs.flatMap fun b =>
    (leftJoinUsers w (some b.reporter_id)).flatMap fun u1 =>
      (leftJoinUsers w b.assigned_to).map fun u2 =>
        { bug := b
          reporter_name := u1.map fun u => u.name
          assigned_to_name := u2.map fun u => u.name
          hours_open := timestampDiffHour b.created_at env.now }

/-- The order `ORDER BY hours_open DESC`. -/
def SLARow.before (a b : SLARow) : Prop := b.hours_open ≤ a.hours_open

instance : DecidableRel SLARow.before :=
  fun a b => inferInstanceAs (Decidable (b.hours_open ≤ a.hours_open))

instance : IsTotal SLARow SLARow.before :=
  ⟨fun a b => Int.le_total b.hours_open a.hours_open⟩

instance : IsTrans SLARow SLARow.before :=
  ⟨fun _ _ _ h1 h2 => Int.le_trans h2 h1⟩

/-- The rows of the query of `getSLAViolations`. SQL leaves the order of rows with equal
`hours_open` open; the model keeps them in table order. -/
def getSLAViolations.results (env : Env) (w : World) : List SLARow :=
  ((getSLAViolations.joined env w).filter fun r =>
    getSLAViolations.condition env r.bug).insertionSort SLARow.before

/-- The function `getSLAViolations`. -/
def getSLAViolations (env : Env) (w : World) : Response (List SLARow) :=
  .ok 200 (getSLAViolations.results env w)

/-- A row of the priority report. -/
structure PriorityRow where
  priority : String
  count : Nat
  open_count : Nat
  in_progress_count : Nat
  resolved_count : Nat
  deriving DecidableEq, Repr

/-- The sort key `CASE priority WHEN 'critical' THEN 1 ... WHEN 'low' THEN 4 END`. For any other
priority the `CASE` is `NULL`, which an ascending `ORDER BY` puts first: rank 0. -/
def priorityRank (p : String) : Nat :=
  if p = "critical" then 1
  else if p = "high" then 2
  else if p = "medium" then 3
  else if p = "low" then 4
  else 0

/-- The fixed order of the report: `critical`, `high`, `medium`, `low`. -/
def priorityOrder : List String := ["critical", "high", "medium", "low"]

/-- One priority is ranked strictly before another. -/
def rankLt (a b : String) : Prop := priorityRank a < priorityRank b

/-- One priority is ranked no later than another. -/
def rankLe (a b : String) : Prop := priorityRank a ≤ priorityRank b

instance : DecidableRel rankLt :=
  fun a b => inferInstanceAs (Decidable (priorityRank a < priorityRank b))

instance : DecidableRel rankLe :=
  fun a b => inferInstanceAs (Decidable (priorityRank a ≤ priorityRank b))

instance : IsTotal String rankLe := ⟨fun a b => Nat.le_total (priorityRank a) (priorityRank b)⟩

instance : IsTrans String rankLe := ⟨fun _ _ _ h1 h2 => Nat.le_trans h1 h2⟩

instance : IsAntisymm String rankLt :=
  ⟨fun _ _ h1 h2 => absurd h1 (Nat.lt_asymm h2)⟩

/-- The order of the `ORDER BY` of `getBugsByPriority`. -/
def PriorityRow.before (a b : PriorityRow) : Prop :=
  priorityRank a.priority ≤ priorityRank b.priority

instance : DecidableRel PriorityRow.before :=
  fun a b => inferInstanceAs (Decidable (priorityRank a.priority ≤ priorityRank b.priority))

/-- The aggregates of the group of priority `p` (lines 15 to 19). -/
def getBugsByPriority.group (w : World) (p : String) : PriorityRow :=
  { priority := p
    count := (w.bugs.filter fun b => b.priority = p).length
    open_count := ((w.bugs.filter fun b => b.priority = p).filter fun b =>
      b.status = "open").length
    in_progress_count := ((w.bugs.filter fun b => b.priority = p).filter fun b =>
      b.status = "in_progress").length
    resolved_count := ((w.bugs.filter fun b => b.priority = p).filter fun b =>
      b.status = "resolved").length }

/-- The rows of the query of `getBugsByPriority`: `GROUP BY priority`, then the `ORDER BY`. -/
def getBugsByPriority.results (w : World) : List PriorityRow :=
  (((w.bugs.map fun b => b.priority).dedup).map
    (getBugsByPriority.group w)).insertionSort PriorityRow.before

/-- The function `getBugsByPriority`. -/
def getBugsByPriority (w : World) : Response (List PriorityRow) :=
  .ok 200 (getBugsByPriority.results w)

/-- A row of the developer performance report. -/
structure DeveloperRow where
  id : Int
  name : String
  total_assigned : Nat
  resolved_count : Nat
  in_progress_count : Nat
  open_count : Nat
  avg_resolution_time_hours : Option ℚ
  deriving DecidableEq, Repr

/-- The aggregate `AVG` over the values that are not `NULL`: `NULL` when there is none, their
mean otherwise. The model keeps the exact quotient, which the store reports as a decimal. -/
def sqlAvg (xs : List Int) : Option ℚ :=
  if xs = [] then none else some ((xs.sum : ℚ) / (xs.length : ℚ))

/-- The join `LEFT JOIN bugs b ON u.id = b.assigned_to` seen from one row of `users`: the bugs
assigned to the user, or a single `NULL` row when there is none. -/
def leftJoinBugs (w : World) (u : User) : List (User × Option Bug) :=
  match w.bugs.filter (fun b => b.assigned_to = some u.id) with
  | [] => [(u, none)]
  | bs => bs.map fun b => (u, some b)

/-- The clauses `FROM users u LEFT JOIN bugs b ON u.id = b.assigned_to WHERE u.role =
'developer'` (lines 81 to 83). -/
def getDeveloperPerformance.joined (w : World) : List (User × Option Bug) :=
  (w.users.flatMap (leftJoinBugs w)).filter fun r => r.1.role = "developer"

/-- The hours `TIMESTAMPDIFF(HOUR, b.created_at, b.resolved_at)` of a bug that has a resolved
timestamp, the argument of `AVG` (lines 75 to 80). -/
def resolutionHours (b : Bug) : Option Int :=
  b.resolved_at.map fun t => timestampDiffHour b.created_at t

/-- The aggregates of the group `(u.id, u.name) = g` (lines 69 to 80). -/
def getDeveloperPerformance.group (w : World) (g : Int × String) : DeveloperRow :=
  let bs := ((getDeveloperPerformance.joined w).filter fun r =>
    (r.1.id, r.1.name) = g).filterMap fun r => r.2
  { id := g.1
    name := g.2
    total_assigned := bs.length
    resolved_count := (bs.filter fun b => b.status = "resolved").length
    in_progress_count := (bs.filter fun b => b.status = "in_progress").length
    open_count := (bs.filter fun b => b.status = "open").length
    avg_resolution_time_hours := sqlAvg (bs.filterMap resolutionHours) }

/-- The order `ORDER BY resolved_count DESC`. -/
def DeveloperRow.before (a b : DeveloperRow) : Prop := b.resolved_count ≤ a.resolved_count

instance : DecidableRel DeveloperRow.before :=
  fun a b => inferInstanceAs (Decidable (b.resolved_count ≤ a.resolved_count))

instance : IsTotal DeveloperRow DeveloperRow.before :=
  ⟨fun a b => Nat.le_total b.resolved_count a.resolved_count⟩

instance : IsTrans DeveloperRow DeveloperRow.before :=
  ⟨fun _ _ _ h1 h2 => Nat.le_trans h2 h1⟩

/-- The rows of the query of `getDeveloperPerformance`: `GROUP BY u.id, u.name`, then the
`ORDER BY`. -/
def getDeveloperPerformance.results (w : World) : List DeveloperRow :=
  ((((getDeveloperPerformance.joined w).map fun r => (r.1.id, r.1.name)).dedup).map
    (getDeveloperPerformance.group w)).insertionSort DeveloperRow.before

/-- The function `getDeveloperPerformance`. -/
def getDeveloperPerformance (w : World) : Response (List DeveloperRow) :=
  .ok 200 (getDeveloperPerformance.results w)

/-- The resolution times, in whole hours, of the bugs assigned to the user `developer` that have a
resolved timestamp. -/
def resolutionTimes (w : World) (developer : Int) : List Int :=
  (w.bugs.filter fun b => b.assigned_to = some developer).filterMap resolutionHours

/-! ## JavaScript numbers -/

/-- The number of binary digits of a positive natural number (at most 1100 here). -/
def binaryLength (m : Nat) : Nat :=
  ((List.range 1100).find? fun n => decide (m < 2 ^ n)).getD 1100

/-- The JavaScript number nearest to an integer: the IEEE 754 double, rounded to nearest with
ties to even. An integer below `2^53` in magnitude is a number itself; a larger one is rounded
to 53 significant bits. (From `2^1024` on the number is `Infinity`, which is outside the
model.) It is the value of `Number(s)`, and of `parseInt(s)`, for a decimal numeral `s`, and the
rounding of every arithmetic result. -/
def toNumber (x : Int) : Int :=
  if x.natAbs < 2 ^ 53 then x
  else
    let e := binaryLength x.natAbs - 53
    let q := x.natAbs / 2 ^ e
    let r := x.natAbs % 2 ^ e
    let q' := if 2 ^ e < 2 * r ∨ (2 * r = 2 ^ e ∧ q % 2 = 1) then q + 1 else q
    x.sign * ((q' * 2 ^ e : Nat) : Int)

/-- The number of decimal digits of a positive natural number (at most 400 here). -/
def decimalLength (m : Nat) : Nat :=
  ((List.range 400).find? fun n => decide (m < 10 ^ n)).getD 400

/-- The decimals `s × 10^(n-k)` of `k` digits (`10^(k-1) ≤ s < 10^k`) that round to the number
`m`, as pairs `(s, n)`: the candidates of `Number::toString` for its digits. -/
def digitCandidates (m k : Nat) : List (Nat × Nat) :=
  ([decimalLength m, decimalLength m + 1].flatMap fun n =>
    [(m / 10 ^ (n - k), n), (m / 10 ^ (n - k) + 1, n)]).filter fun c =>
      decide (10 ^ (k - 1) ≤ c.1 ∧ c.1 < 10 ^ k)
        && decide (toNumber ((c.1 * 10 ^ (c.2 - k) : Nat) : Int) = (m : Int))

/-- The candidate whose value is closest to `m`, if there is one. -/
def closestCandidate (m k : Nat) (cs : List (Nat × Nat)) : Option (Nat × Nat) :=
  cs.foldl (fun best c =>
    match best with
    | none => some c
    | some b =>
      if (((c.1 * 10 ^ (c.2 - k) : Nat) : Int) - (m : Int)).natAbs
          < (((b.1 * 10 ^ (b.2 - k) : Nat) : Int) - (m : Int)).natAbs then some c
      else some b) none

/-- The leading digit of `String(m)` for a number `m` of at least `10^21`, which is written in
exponent form with the fewest digits that round back to `m` (17 always suffice). -/
def leadingDigit (m : Nat) : Nat :=
  ((List.range 17).findSome? fun i =>
    (closestCandidate m (i + 1) (digitCandidates m (i + 1))).map fun c => c.1 / 10 ^ i).getD
      (m / 10 ^ (decimalLength m - 1))

/-- The call `parseInt(x)` on a number `x` that holds an integer: `parseInt` reads the string
`String(x)`. Below `10^21` in magnitude that string is the decimal numeral of `x`, and `parseInt`
gives `x` back; from `10^21` on it is an exponent form such as `1e+21`, of which `parseInt`
reads the leading digit only. -/
def parseIntNumber (x : Int) : Int :=
  if x.natAbs < 10 ^ 21 then x else x.sign * (leadingDigit x.natAbs : Int)

/-! ## `getAllBugs` (`src/controllers/bugController.js`) -/

/-- The query string `req.query` of `getAllBugs`. A filter is a string or absent; `page` and
`limit` are the integers the strings denote, or absent (a value that is no integer is outside
the model). -/
structure BugsQuery where
  status : Option String
  priority : Option String
  assigned_to : Option String
  page : Option Int
  limit : Option Int
  deriving DecidableEq, Repr

/-- The JavaScript value of a property of the query string. -/
def queryValue : Option String → JSValue
  | some s => .str s
  | none => .undefined

/-- The comparison `column = ?` of a text column with a bound parameter. -/
def sqlTextEq (column : String) (v : JSValue) : Bool :=
  match v with
  | .str s => column == s
  | _ => false

/-- The comparison `column = ?` of a nullable integer column with a bound parameter: never
true of `NULL`. -/
def sqlIntEq (column : Option Int) (v : JSValue) : Bool :=
  match column, sqlInt v with
  | some a, some k => a == k
  | _, _ => false

/-- The `WHERE` clause of the list query (lines 28 to 39): a filter applies when its query
value is truthy. -/
def getAllBugs.condition (q : BugsQuery) (b : Bug) : Bool :=
  (if (queryValue q.status).truthy then sqlTextEq b.status (queryValue q.status) else true)
    && (if (queryValue q.priority).truthy then sqlTextEq b.priority (queryValue q.priority)
        else true)
    && (if (queryValue q.assigned_to).truthy
        then sqlIntEq b.assigned_to (queryValue q.assigned_to) else true)

/-- The `WHERE` clause of the count query (lines 49 to 60). -/
def getAllBugs.countCondition (q : BugsQuery) (b : Bug) : Bool :=
  (if (queryValue q.status).truthy then sqlTextEq b.status (queryValue q.status) else true)
    && (if (queryValue q.priority).truthy then sqlTextEq b.priority (queryValue q.priority)
        else true)
    && (if (queryValue q.assigned_to).truthy
        then sqlIntEq b.assigned_to (queryValue q.assigned_to) else true)

/-- A row of the list: `b.*` and the two joined names. -/
structure BugListRow where
  bug : Bug
  reporter_name : Option String
  assigned_to_name : Option String
  deriving DecidableEq, Repr

/-- The `FROM` clause of the list query with its select list (lines 18 to 23). -/
def getAllBugs.joined (w : World) : List BugListRow :=
  w.bugs.flatMap fun b =>
    (leftJoinUsers w (some b.reporter_id)).flatMap fun u1 =>
      (leftJoinUsers w b.assigned_to).map fun u2 =>
        { bug := b
          reporter_name := u1.map fun u => u.name
          assigned_to_name := u2.map fun u => u.name }

/-- The order `ORDER BY b.created_at DESC` on bugs. -/
def Bug.newerFirst (a b : Bug) : Prop := b.created_at ≤ a.created_at

instance : DecidableRel Bug.newerFirst :=
  fun a b => inferInstanceAs (Decidable (b.created_at ≤ a.created_at))

instance : IsTotal Bug Bug.newerFirst := ⟨fun a b => Int.le_total b.created_at a.created_at⟩

instance : IsTrans Bug Bug.newerFirst := ⟨fun _ _ _ h1 h2 => Int.le_trans h2 h1⟩

/-- One bug is created strictly after another. -/
def Bug.strictlyNewer (a b : Bug) : Prop := b.created_at < a.created_at

instance : IsAntisymm Bug Bug.strictlyNewer :=
  ⟨fun _ _ h1 h2 => absurd h1 (Int.not_lt.mpr (Int.le_of_lt h2))⟩

/-- The order `ORDER BY b.created_at DESC` on the rows of the list. -/
def BugListRow.before (a b : BugListRow) : Prop := b.bug.created_at ≤ a.bug.created_at

instance : DecidableRel BugListRow.before :=
  fun a b => inferInstanceAs (Decidable (b.bug.created_at ≤ a.bug.created_at))

/-- The offset `(page - 1) * limit` of line 15, in JavaScript numbers: the query strings become
numbers, and the difference and the product are rounded. -/
def getAllBugs.offset (q : BugsQuery) : Int :=
  toNumber (toNumber (toNumber (q.page.getD 1) - 1) * toNumber (q.limit.getD 10))

/-- The rows of the list query: `WHERE`, `ORDER BY b.created_at DESC`, then `LIMIT ? OFFSET ?`
with `parseInt(limit)`, read from the query string, and `parseInt(offset)`, read from the number
`offset`. SQL leaves the order of rows with equal `created_at` open; the model keeps them in
table order, the same for every page. A limit or offset the store refuses (a negative one, or
one beyond its integers) is outside the model, where a negative one counts as 0. -/
def getAllBugs.bugs (q : BugsQuery) (w : World) : List BugListRow :=
  ((((getAllBugs.joined w).filter fun r =>
    getAllBugs.condition q r.bug).insertionSort BugListRow.before).drop
      (parseIntNumber (getAllBugs.offset q)).toNat).take (toNumber (q.limit.getD 10)).toNat

/-- The count query `SELECT COUNT(*) as total FROM bugs WHERE ...`. -/
def getAllBugs.total (q : BugsQuery) (w : World) : Int :=
  ((w.bugs.filter (getAllBugs.countCondition q)).length : Int)

/-- The function `Math.ceil(a / b)` on integers, for `b` other than 0 (a division by 0 gives no
integer and is outside the model). For `a` from 0 to `2^53 - 1` and a number `b` of at least 1,
the ceiling of the rounded quotient is the ceiling of the exact one: the quotient lies more than
half a step of the numbers above the integer below it. -/
def mathCeilDiv (a b : Int) : Int := -(Int.fdiv (-a) b)

/-- The object `pagination` of the response. -/
structure Pagination where
  page : Int
  limit : Int
  total : Int
  pages : Int
  deriving DecidableEq, Repr

/-- The body of the response of `getAllBugs`. -/
structure BugsPage where
  bugs : List BugListRow
  pagination : Pagination
  deriving DecidableEq, Repr

/-- The function `getAllBugs`; `q` is `req.query`. The pagination carries `parseInt(page)` and
`parseInt(limit)`, and the ceiling of `total / limit` with `limit` as a number. -/
def getAllBugs (q : BugsQuery) (w : World) : Response BugsPage :=
  let page := q.page.getD 1
  let limit := q.limit.getD 10
  let total := getAllBugs.total q w
  .ok 200
    { bugs := getAllBugs.bugs q w
      pagination :=
        { page := toNumber page
          limit := toNumber limit
          total := total
          pages := mathCeilDiv total (toNumber limit) } }

/-- The bugs matching the filters of `q`, newest first: the list the pages are cut from. -/
def getAllBugs.matching (q : BugsQuery) (w : World) : List Bug :=
  (w.bugs.filter (getAllBugs.condition q)).insertionSort Bug.newerFirst

/-! ## `getBugsPerDay` (`src/controllers/reportController.js`) -/

/-- The SQL function `DATE(t)`: the day of a timestamp, as the number of whole days of 86400
seconds since the start of the clock. -/
def sqlDate (t : Int) : Int := t / 86400

/-- A row of the report per day. -/
structure DayRow where
  date : Int
  count : Nat
  critical_count : Nat
  high_count : Nat
  deriving DecidableEq, Repr

/-- The `WHERE` clause `created_at >= DATE_SUB(NOW(), INTERVAL ? DAY)` (line 51). -/
def getBugsPerDay.condition (env : Env) (days : Int) (b : Bug) : Bool :=
  decide (b.created_at ≥ env.now - days * 86400)

/-- The aggregates of the group of the day `d` (lines 46 to 49). -/
def getBugsPerDay.group (env : Env) (days : Int) (w : World) (d : Int) : DayRow :=
  { date := d
    count := ((w.bugs.filter (getBugsPerDay.condition env days)).filter fun b =>
      sqlDate b.created_at = d).length
    critical_count := (((w.bugs.filter (getBugsPerDay.condition env days)).filter fun b =>
      sqlDate b.created_at = d).filter fun b => b.priority = "critical").length
    high_count := (((w.bugs.filter (getBugsPerDay.condition env days)).filter fun b =>
      sqlDate b.created_at = d).filter fun b => b.priority = "high").length }

/-- The order `ORDER BY date DESC`. -/
def DayRow.before (a b : DayRow) : Prop := b.date ≤ a.date

instance : DecidableRel DayRow.before :=
  fun a b => inferInstanceAs (Decidable (b.date ≤ a.date))

/-- The order `DESC` on days. -/
def laterDay (a b : Int) : Prop := b ≤ a

instance : DecidableRel laterDay := fun a b => inferInstanceAs (Decidable (b ≤ a))

instance : IsTotal Int laterDay := ⟨fun a b => Int.le_total b a⟩

instance : IsTrans Int laterDay := ⟨fun _ _ _ h1 h2 => Int.le_trans h2 h1⟩

/-- The rows of the query of `getBugsPerDay`; `days` is `req.query.days`, the integer the string
denotes, and 30 when the query has none (line 42). -/
def getBugsPerDay.results (env : Env) (days : Option Int) (w : World) : List DayRow :=
  ((((w.bugs.filter (getBugsPerDay.condition env (days.getD 30))).map fun b =>
    sqlDate b.created_at).dedup).map
      (getBugsPerDay.group env (days.getD 30) w)).insertionSort DayRow.before

/-- The function `getBugsPerDay`. -/
def getBugsPerDay (env : Env) (days : Option Int) (w : World) : Response (List DayRow) :=
  .ok 200 (getBugsPerDay.results env days w)

/-! ## Fixtures -/

namespace Example

/-- An environment: the clock reads 1000 and the transport accepts every message. -/
def env : Env :=
  { now := 1000, sendMail := fun _ => .ok "id-1", dateString := fun t => toString t }

/-- The reporter of the fixtures. -/
def bob : User := { id := 4, name := "Bob Reporter", email := "bob@bugtracker.com", role := "reporter" }

/-- A developer of the fixtures. -/
def john : User :=
  { id := 2, name := "John Developer", email := "john@bugtracker.com", role := "developer" }

/-- An open, unassigned bug. -/
def bug : Bug :=
  { id := 1, title := "Login page not loading", description := "Users cannot access the login page"
    priority := "critical", severity := "critical", status := "open", reporter_id := 4
    assigned_to := none, created_at := 0, resolved_at := none }

/-- A world holding `bug`, its reporter and a developer. -/
def world : World :=
  { bugs := [bug], users := [bob, john], bug_history := [], sent := [], console := [] }

/-- The bug after it was resolved at time 100. -/
def resolvedBug : Bug := { bug with status := "resolved", resolved_at := some 100 }

/-- A world holding `resolvedBug`. -/
def resolvedWorld : World := { world with bugs := [resolvedBug] }

/-- The bug while it is assigned to `john`. -/
def assignedBug : Bug := { bug with assigned_to := some 2 }

/-- A world holding `assignedBug`. -/
def assignedWorld : World := { world with bugs := [assignedBug] }

/-- The patch of the update test: `status: in_progress`. -/
def statusPatch : Body := [("status", .str "in_progress")]

/-- A store whose bugs were inserted in the order low, critical, high, critical. -/
def reportWorld : World :=
  { world with bugs :=
      [{ bug with id := 1, priority := "low" },
       { bug with id := 2, priority := "critical", status := "resolved" },
       { bug with id := 3, priority := "high", status := "in_progress" },
       { bug with id := 4, priority := "critical" }] }

/-- An environment whose clock reads hour 2 sharp. -/
def resolveEnv : Env := { env with now := 7200 }

/-- The world of the fixtures after two updates: at hour 2 the bug is assigned to developer 2
and resolved, later it is reopened. -/
def reopenedWorld : World :=
  (updateBug env 1 [("status", .str "reopened")] 2
    (updateBug resolveEnv 1 [("status", .str "resolved"), ("assigned_to", .num 2)] 2 world).1).1

/-- The report row of developer 2 in `reopenedWorld`. -/
def johnRow : DeveloperRow :=
  { id := 2, name := "John Developer", total_assigned := 1, resolved_count := 0
    in_progress_count := 0, open_count := 0, avg_resolution_time_hours := sqlAvg [2] }

/-- An environment whose clock reads hour 25 sharp. -/
def slaEnv : Env := { env with now := 25 * 3600 }

/-- A second developer, with no bug assigned. -/
def jane : User :=
  { id := 3, name := "Jane Developer", email := "jane@bugtracker.com", role := "developer" }

/-- The reopened world with the second developer registered. -/
def teamWorld : World := { reopenedWorld with users := [bob, john, jane] }

/-- A creation payload that also carries a status. -/
def createPayload : Body :=
  [("title", .str "Test Bug"), ("description", .str "This is a test bug description"),
   ("priority", .str "high"), ("status", .str "resolved")]

/-- The patch that unassigns a bug: `assigned_to: null`. -/
def unassignPatch : Body := [("assigned_to", .null)]

/-- An environment whose transport throws on every message. -/
def failingEnv : Env := { env with sendMail := fun _ => .error "connect ECONNREFUSED" }

/-- An environment whose clock reads hour 73 sharp. -/
def lateEnv : Env := { env with now := 73 * 3600 }

/-- A store with a high bug created at hour 20 followed by a critical bug created at hour 0. -/
def slaWorld : World :=
  { world with bugs :=
      [{ bug with id := 1, priority := "high", created_at := 20 * 3600 },
       { bug with id := 2, priority := "critical", status := "in_progress" }] }

/-- A store of five bugs created at the seconds 10, 50, 30, 20 and 40. -/
def listWorld : World :=
  { world with bugs :=
      [{ bug with id := 1, created_at := 10 },
       { bug with id := 2, created_at := 50, status := "resolved" },
       { bug with id := 3, created_at := 30 },
       { bug with id := 4, created_at := 20, assigned_to := some 2 },
       { bug with id := 5, created_at := 40 }] }

/-- The query `?status=open&page=2&limit=2`. -/
def openPage2 : BugsQuery :=
  { status := some "open", priority := none, assigned_to := none, page := some 2, limit := some 2 }

/-- The query with no parameter. -/
def noQuery : BugsQuery :=
  { status := none, priority := none, assigned_to := none, page := none, limit := none }

/-- An environment whose clock reads day 10 at noon. -/
def dayEnv : Env := { env with now := 10 * 86400 + 43200 }

/-- A store with bugs created on the days 9, 10, 9 and 2. -/
def dayWorld : World :=
  { world with bugs :=
      [{ bug with id := 1, created_at := 9 * 86400 + 100 },
       { bug with id := 2, created_at := 10 * 86400 + 5, priority := "high" },
       { bug with id := 3, created_at := 9 * 86400 + 7000 },
       { bug with id := 4, created_at := 2 * 86400, priority := "low" }] }

/-- The query `?page=1000000000000000000001&limit=1`. -/
def hugePage : BugsQuery :=
  { status := none, priority := none, assigned_to := none, page := some (10 ^ 21 + 1)
    limit := some 1 }

end Example

/-! # Theorems -/

/-! ## Lemmas on JavaScript values and bodies -/

theorem JSValue.strictEq_eq_of_isJSON (a b : JSValue) (hb : b.isJSON = true) :
    a.strictEq b = decide (a = b) := by
  cases a <;> cases b <;> simp_all [JSValue.strictEq, JSValue.isJSON, beq_eq_decide]

theorem JSValue.strictNe_eq_of_isJSON (a b : JSValue) (hb : b.isJSON = true) :
    a.strictNe b = decide (a ≠ b) := by
  simp [JSValue.strictNe, JSValue.strictEq_eq_of_isJSON a b hb]

theorem JSValue.strictNe_undefined (a : JSValue) :
    a.strictNe .undefined = decide (a ≠ .undefined) := by
  cases a <;> simp [JSValue.strictNe, JSValue.strictEq]

theorem Body.get_mem_of_mem_keys (body : Body) (k : String) (hk : k ∈ Object.keys body) :
    (k, body.get k) ∈ body := by
  induction body with
  | nil => simp [Object.keys] at hk
  | cons p t ih =>
    obtain ⟨k', v⟩ := p
    by_cases h : k = k'
    · subst h
      simp [Body.get, List.lookup]
    · have hk' : k ∈ Object.keys t := by
        simpa [Object.keys, h] using hk
      have := ih hk'
      have hb : (k == k') = false := by simpa using h
      simp only [Body.get, List.lookup, hb] at this ⊢
      exact List.mem_cons_of_mem _ this

theorem Body.get_undefined_of_not_mem_keys (body : Body) (k : String)
    (hk : k ∉ Object.keys body) : body.get k = .undefined := by
  induction body with
  | nil => simp [Body.get, List.lookup]
  | cons p t ih =>
    obtain ⟨k', v⟩ := p
    have h : k ≠ k' := by
      intro h
      exact hk (by simp [Object.keys, h])
    have hk' : k ∉ Object.keys t := by
      intro h'
      exact hk (by simp [Object.keys] at h' ⊢; exact Or.inr h')
    have hb : (k == k') = false := by simpa using h
    have := ih hk'
    simp only [Body.get, List.lookup, hb] at this ⊢
    exact this

/-! ## Lemmas on the steps of `updateBug` -/

theorem SetClause.apply_id (env : Env) (b : Bug) (c : SetClause) : (c.apply env b).id = b.id := by
  cases c with
  | param column value =>
    simp only [SetClause.apply]
    split_ifs <;> rfl
  | resolvedAtNow => rfl

theorem SetClause.foldl_apply_id (env : Env) (cs : List SetClause) (b : Bug) :
    (cs.foldl (SetClause.apply env) b).id = b.id := by
  induction cs generalizing b with
  | nil => rfl
  | cons c t ih => simp [List.foldl, ih, SetClause.apply_id]

theorem selectBug_updateBugs (env : Env) (updates : List SetClause) (id : Int) (w : World) :
    selectBug (updateBugs env updates id w) id
      = (selectBug w id).map fun b => updates.foldl (SetClause.apply env) b := by
  simp only [selectBug, updateBugs]
  induction w.bugs with
  | nil => rfl
  | cons b t ih =>
    by_cases h : b.id = id
    · simp [List.filter, h, SetClause.foldl_apply_id, ih]
    · simp [List.filter, h, ih]

/-- The loop over the keys appends one history row per differing key and touches nothing else. -/
theorem foldl_logField (env : Env) (id user_id : Int) (current : Bug) (body : Body)
    (keys : List String) (w : World) :
    keys.foldl (updateBug.logField env id user_id current body) w
      = { w with bug_history := (w.bug_history ++
            (keys.filter fun f => (current.get f).strictNe (body.get f)).map
              (updateBug.historyRow env id user_id current body)) } := by
  induction keys generalizing w with
  | nil => simp
  | cons k t ih =>
    rw [List.foldl_cons, ih]
    by_cases h : (current.get k).strictNe (body.get k) = true
    · simp [updateBug.logField, insertHistory, updateBug.historyRow, h, List.filter]
    · simp [updateBug.logField, h, List.filter]

theorem sendEmail_world (env : Env) (m : Mail) (w : World) :
    (sendEmail env m w).1.bugs = w.bugs ∧ (sendEmail env m w).1.users = w.users
      ∧ (sendEmail env m w).1.bug_history = w.bug_history
      ∧ (sendEmail env m w).1.sent = w.sent := by
  unfold sendEmail
  cases env.sendMail m <;> simp

theorem notifyAssignment_world (env : Env) (body : Body) (current updated : Bug) (w : World) :
    (updateBug.notifyAssignment env body current updated w).bugs = w.bugs
      ∧ (updateBug.notifyAssignment env body current updated w).users = w.users
      ∧ (updateBug.notifyAssignment env body current updated w).bug_history = w.bug_history
      ∧ (updateBug.notifyAssignment env body current updated w).sent
          = w.sent ++ updateBug.assignmentSent body current updated w := by
  unfold updateBug.notifyAssignment updateBug.assignmentSent
  simp only []
  split_ifs with h
  · cases hsel : selectUser w (body.get "assigned_to") with
    | nil => simp
    | cons developer t =>
      have := sendEmail_world env (bugAssignmentMail updated developer)
        { w with sent := w.sent ++ [.bugAssignment updated developer] }
      simpa [sendBugAssignmentEmail] using this
  · simp

theorem notifyStatus_world (env : Env) (body : Body) (current updated : Bug) (w : World) :
    (updateBug.notifyStatus env body current updated w).bugs = w.bugs
      ∧ (updateBug.notifyStatus env body current updated w).users = w.users
      ∧ (updateBug.notifyStatus env body current updated w).bug_history = w.bug_history
      ∧ (updateBug.notifyStatus env body current updated w).sent
          = w.sent ++ updateBug.statusSent body current updated w := by
  unfold updateBug.notifyStatus updateBug.statusSent
  simp only []
  split_ifs with h
  · cases hsel : selectUser w (.num current.reporter_id) with
    | nil => simp
    | cons reporter t =>
      have := sendEmail_world env (bugStatusUpdateMail updated reporter)
        { w with sent := w.sent ++ [.bugStatusUpdate updated reporter] }
      simpa [sendBugStatusUpdateEmail] using this
  · simp

/-- The successful path of `updateBug`, step by step. -/
theorem updateBug_ok (env : Env) (id : Int) (body : Body) (user_id : Int) (w : World)
    (current : Bug) (rest : List Bug) (hcur : selectBug w id = current :: rest)
    (hup : updateBug.updates body ≠ []) :
    updateBug env id body user_id w
      = (updateBug.notifyStatus env body current (updateBug.updated env body current)
          (updateBug.notifyAssignment env body current (updateBug.updated env body current)
            (updateBug.logged env id body user_id current w)),
         .ok 200 (updateBug.updated env body current)) := by
  have hlen : ¬ (updateBug.updates body).length = 0 := by
    simpa [List.length_eq_zero] using hup
  have hsel : selectBug (updateBug.logged env id body user_id current w) id
      = updateBug.updated env body current
        :: rest.map fun b => (updateBug.updates body).foldl (SetClause.apply env) b := by
    have h1 := selectBug_updateBugs env (updateBug.updates body) id w
    rw [hcur] at h1
    simp only [updateBug.logged, foldl_logField]
    simpa [selectBug, updateBug.updated] using h1
  unfold updateBug
  simp only [hcur, hlen, if_false]
  have hsel' := hsel
  simp only [updateBug.logged] at hsel'
  simp only [hsel']
  rfl

/-- The reloaded row, column by column. -/
theorem updated_eq (env : Env) (body : Body) (current : Bug) :
    updateBug.updated env body current =
      { id := current.id
        title := if (body.get "title").strictNe .undefined then sqlText env (body.get "title")
          else current.title
        description := if (body.get "description").strictNe .undefined
          then sqlText env (body.get "description") else current.description
        priority := if (body.get "priority").strictNe .undefined
          then sqlText env (body.get "priority") else current.priority
        severity := if (body.get "severity").strictNe .undefined
          then sqlText env (body.get "severity") else current.severity
        status := if (body.get "status").strictNe .undefined then sqlText env (body.get "status")
          else current.status
        reporter_id := current.reporter_id
        assigned_to := if (body.get "assigned_to").strictNe .undefined
          then sqlInt ((body.get "assigned_to").or .null) else current.assigned_to
        created_at := current.created_at
        resolved_at := if (body.get "status").strictEq (.str "resolved") then some env.now
          else current.resolved_at } := by
  have hres : (body.get "status").strictEq (.str "resolved") = true →
      (body.get "status").strictNe .undefined = true := by
    intro h
    cases hs : body.get "status" <;> simp_all [JSValue.strictEq, JSValue.strictNe]
  unfold updateBug.updated updateBug.updates
  simp only []
  split_ifs <;> simp_all [List.foldl, SetClause.apply]

theorem updates_ne_nil (body : Body)
    (hrec : ∃ f ∈ updateBug.fields, body.get f ≠ .undefined) : updateBug.updates body ≠ [] := by
  obtain ⟨f, hf, hne⟩ := hrec
  have hne' : (body.get f).strictNe .undefined = true := by
    simpa [JSValue.strictNe_undefined] using hne
  simp only [updateBug.fields, List.mem_cons, List.mem_singleton, List.not_mem_nil, or_false]
    at hf
  unfold updateBug.updates
  simp only []
  rcases hf with h | h | h | h | h | h <;> subst h <;> simp [hne']

theorem updates_eq_nil (body : Body)
    (hnone : ∀ f ∈ updateBug.fields, body.get f = .undefined) : updateBug.updates body = [] := by
  have h1 := hnone "title" (by simp [updateBug.fields])
  have h2 := hnone "description" (by simp [updateBug.fields])
  have h3 := hnone "priority" (by simp [updateBug.fields])
  have h4 := hnone "severity" (by simp [updateBug.fields])
  have h5 := hnone "status" (by simp [updateBug.fields])
  have h6 := hnone "assigned_to" (by simp [updateBug.fields])
  simp [updateBug.updates, h1, h2, h3, h4, h5, h6, JSValue.strictNe, JSValue.strictEq]

theorem Body.get_ne_undefined (body : Body) (hjson : ∀ p ∈ body, p.2.isJSON = true)
    (k : String) (hk : k ∈ Object.keys body) : body.get k ≠ .undefined := by
  have hmem := Body.get_mem_of_mem_keys body k hk
  have := hjson _ hmem
  intro h
  simp [h, JSValue.isJSON] at this

theorem Body.get_isJSON (body : Body) (hjson : ∀ p ∈ body, p.2.isJSON = true)
    (k : String) (hk : k ∈ Object.keys body) : (body.get k).isJSON = true :=
  hjson _ (Body.get_mem_of_mem_keys body k hk)

/-- The history after a successful `updateBug`. -/
theorem updateBug_history (env : Env) (id : Int) (body : Body) (user_id : Int) (w : World)
    (current : Bug) (rest : List Bug) (hcur : selectBug w id = current :: rest)
    (hup : updateBug.updates body ≠ []) :
    (updateBug env id body user_id w).1.bug_history
      = w.bug_history ++
          ((Object.keys body).filter fun f => (current.get f).strictNe (body.get f)).map
            (updateBug.historyRow env id user_id current body) := by
  rw [updateBug_ok env id body user_id w current rest hcur hup]
  simp only [(notifyStatus_world _ _ _ _ _).2.2.1, (notifyAssignment_world _ _ _ _ _).2.2.1,
    updateBug.logged, foldl_logField, updateBugs]

/-- The bugs table after a successful `updateBug` is the table after its `UPDATE`. -/
theorem updateBug_bugs (env : Env) (id : Int) (body : Body) (user_id : Int) (w : World)
    (current : Bug) (rest : List Bug) (hcur : selectBug w id = current :: rest)
    (hup : updateBug.updates body ≠ []) :
    (updateBug env id body user_id w).1.bugs
      = (updateBugs env (updateBug.updates body) id w).bugs := by
  rw [updateBug_ok env id body user_id w current rest hcur hup]
  simp only [(notifyStatus_world _ _ _ _ _).1, (notifyAssignment_world _ _ _ _ _).1,
    updateBug.logged, foldl_logField]

/-- The reload after a successful `updateBug` finds the row the response carries. -/
theorem updateBug_reload (env : Env) (id : Int) (body : Body) (user_id : Int) (w : World)
    (current : Bug) (rest : List Bug) (hcur : selectBug w id = current :: rest)
    (hup : updateBug.updates body ≠ []) :
    selectBug (updateBug env id body user_id w).1 id
        = updateBug.updated env body current
          :: rest.map (fun b => (updateBug.updates body).foldl (SetClause.apply env) b)
      ∧ (updateBug env id body user_id w).2 = .ok 200 (updateBug.updated env body current) := by
  constructor
  · have h1 := selectBug_updateBugs env (updateBug.updates body) id w
    rw [hcur] at h1
    have h2 := updateBug_bugs env id body user_id w current rest hcur hup
    simp only [selectBug] at h1 ⊢
    rw [h2]
    simpa [updateBug.updated] using h1
  · rw [updateBug_ok env id body user_id w current rest hcur hup]

theorem selectUser_congr (w w' : World) (h : w'.users = w.users) (v : JSValue) :
    selectUser w' v = selectUser w v := by
  simp [selectUser, h]

theorem selectUser_id (w : World) (a : Int) (u : User) (us : List User)
    (h : selectUser w (.num a) = u :: us) : u.id = a := by
  have hmem : u ∈ selectUser w (.num a) := by simp [h]
  simpa [selectUser, sqlInt] using (List.mem_filter.mp hmem).2

/-- The notifications a successful `updateBug` sends: the assignment notice, then the status
notice. -/
theorem updateBug_sent (env : Env) (id : Int) (body : Body) (user_id : Int) (w : World)
    (current : Bug) (rest : List Bug) (hcur : selectBug w id = current :: rest)
    (hup : updateBug.updates body ≠ []) :
    (updateBug env id body user_id w).1.sent
      = w.sent ++ (updateBug.assignmentSent body current (updateBug.updated env body current) w
          ++ updateBug.statusSent body current (updateBug.updated env body current) w) := by
  rw [updateBug_ok env id body user_id w current rest hcur hup]
  have hlog : (updateBug.logged env id body user_id current w).users = w.users
      ∧ (updateBug.logged env id body user_id current w).sent = w.sent := by
    simp [updateBug.logged, foldl_logField, updateBugs]
  have hA := notifyAssignment_world env body current (updateBug.updated env body current)
    (updateBug.logged env id body user_id current w)
  have hS := notifyStatus_world env body current (updateBug.updated env body current)
    (updateBug.notifyAssignment env body current (updateBug.updated env body current)
      (updateBug.logged env id body user_id current w))
  have e1 : updateBug.assignmentSent body current (updateBug.updated env body current)
      (updateBug.logged env id body user_id current w)
      = updateBug.assignmentSent body current (updateBug.updated env body current) w := by
    simp only [updateBug.assignmentSent, selectUser_congr w _ hlog.1]
  have e2 : updateBug.statusSent body current (updateBug.updated env body current)
      (updateBug.notifyAssignment env body current (updateBug.updated env body current)
        (updateBug.logged env id body user_id current w))
      = updateBug.statusSent body current (updateBug.updated env body current) w := by
    simp only [updateBug.statusSent, selectUser_congr w _ (hA.2.1.trans hlog.1)]
  simp only [hS.2.2.2, hA.2.2.2, hlog.2, e1, e2, List.append_assoc]

theorem filter_isAssignment_statusSent (body : Body) (current updated : Bug) (w : World) :
    (updateBug.statusSent body current updated w).filter Notification.isAssignment = [] := by
  unfold updateBug.statusSent
  split_ifs
  · cases selectUser w (.num current.reporter_id) <;> simp [Notification.isAssignment]
  · simp

theorem filter_isStatusUpdate_assignmentSent (body : Body) (current updated : Bug) (w : World) :
    (updateBug.assignmentSent body current updated w).filter Notification.isStatusUpdate = [] := by
  unfold updateBug.assignmentSent
  split_ifs
  · cases selectUser w (body.get "assigned_to") <;> simp [Notification.isStatusUpdate]
  · simp

/-- The `UPDATE` leaves every row with another id as it was. -/
theorem updateBugs_others (env : Env) (updates : List SetClause) (id : Int) (w : World) :
    (updateBugs env updates id w).bugs.filter (fun b => b.id ≠ id)
      = w.bugs.filter (fun b => b.id ≠ id) := by
  simp only [updateBugs]
  induction w.bugs with
  | nil => rfl
  | cons b t ih =>
    by_cases h : b.id = id
    · simp only [decide_not] at ih
      simp [List.filter, h, SetClause.foldl_apply_id, ih]
    · simp only [decide_not] at ih
      simp [List.filter, h, ih]

/-- What the update schema says of one property: a text field carries a string, the assignee an
integer or null. -/
theorem schema_field_cases (key : String) (value : JSValue)
    (h : schemas.updateBug.field key value = true) :
    (key ∈ ["title", "description", "priority", "severity", "status"] ∧ ∃ s, value = .str s)
      ∨ (key = "assigned_to"
          ∧ ((∃ n, value = .num n) ∨ value = .null ∨ ∃ s, value = .str s)) := by
  unfold schemas.updateBug.field at h
  split_ifs at h with h1 h2 h3 h4 h5 h6
  · subst h1
    cases value <;> simp_all
  · subst h2
    cases value <;> simp_all
  · subst h3
    cases value <;> simp_all
  · subst h4
    cases value <;> simp_all
  · subst h5
    cases value <;> simp_all
  · subst h6
    cases value <;> simp_all

/-- After a patch the schema accepts, in which the assignee is neither 0 nor a string, the
reloaded row agrees with the patch on every key of the patch. -/
theorem updated_get_eq (env : Env) (body : Body) (current : Bug)
    (hschema : schemas.updateBug body = true) (hzero : body.get "assigned_to" ≠ .num 0)
    (hstring : ∀ s, body.get "assigned_to" ≠ .str s)
    (f : String) (hf : f ∈ Object.keys body) :
    ((updateBug.updated env body current).get f).strictNe (body.get f) = false := by
  have hmem := Body.get_mem_of_mem_keys body f hf
  have hfield : schemas.updateBug.field f (body.get f) = true := by
    have := List.all_eq_true.mp hschema _ hmem
    simpa using this
  rcases schema_field_cases f (body.get f) hfield with ⟨hk, s, hs⟩ | ⟨hk, hv⟩
  · simp only [List.mem_cons, List.mem_singleton, List.not_mem_nil, or_false] at hk
    rw [updated_eq]
    rcases hk with rfl | rfl | rfl | rfl | rfl <;>
      simp [Bug.get, hs, JSValue.strictNe, JSValue.strictEq, sqlText, JSValue.toJSString]
  · subst hk
    rw [updated_eq]
    rcases hv with ⟨n, hn⟩ | hnull | ⟨s, hs⟩
    rotate_left 2
    · exact absurd hs (hstring s)
    · have hn0 : n ≠ 0 := by
        intro h0
        exact hzero (by rw [hn, h0])
      simp [Bug.get, hn, JSValue.strictNe, JSValue.strictEq, JSValue.or, JSValue.truthy, hn0,
        sqlInt]
    · simp [Bug.get, hnull, JSValue.strictNe, JSValue.strictEq, JSValue.or, JSValue.truthy,
        sqlInt]

/-- Repeating a patch the schema accepts, in which the assignee is neither 0 nor a string,
inserts no history row the second time. -/
theorem updateBug_repeat_history (env env' : Env) (id : Int) (body : Body) (user_id : Int)
    (w : World) (current : Bug) (rest : List Bug) (hcur : selectBug w id = current :: rest)
    (hrec : ∃ f ∈ updateBug.fields, body.get f ≠ .undefined)
    (hschema : schemas.updateBug body = true) (hzero : body.get "assigned_to" ≠ .num 0)
    (hstring : ∀ s, body.get "assigned_to" ≠ .str s) :
    (updateBug env' id body user_id (updateBug env id body user_id w).1).1.bug_history
      = (updateBug env id body user_id w).1.bug_history := by
  have hup := updates_ne_nil body hrec
  obtain ⟨hsel, _⟩ := updateBug_reload env id body user_id w current rest hcur hup
  rw [updateBug_history env' id body user_id _ _ _ hsel hup]
  have hnil : ((Object.keys body).filter fun f =>
      ((updateBug.updated env body current).get f).strictNe (body.get f)) = [] := by
    rw [List.filter_eq_nil_iff]
    intro f hf
    rw [updated_get_eq env body current hschema hzero hstring f hf]
    simp
  rw [hnil]
  simp

/-! ## Lemmas on the reports -/

theorem leftJoinUsers_ne_nil (w : World) (key : Option Int) : leftJoinUsers w key ≠ [] := by
  unfold leftJoinUsers
  split
  · simp
  · rename_i us h
    cases hf : List.filter (fun u => decide (key = some u.id)) w.users with
    | nil => exact absurd hf (h)
    | cons a t => simp

theorem filter_id_length_le_one (l : List User) (h : (l.map fun u => u.id).Nodup)
    (p : User → Bool) (hp : ∀ u v, p u = true → p v = true → u.id = v.id) :
    (l.filter p).length ≤ 1 := by
  induction l with
  | nil => simp
  | cons a t ih =>
    rw [List.map_cons, List.nodup_cons] at h
    by_cases ha : p a = true
    · have ht : t.filter p = [] := by
        rw [List.filter_eq_nil_iff]
        intro u hu hpu
        exact h.1 (List.mem_map.mpr ⟨u, hu, hp u a hpu ha⟩)
      simp [List.filter, ha, ht]
    · simpa [List.filter, ha] using ih h.2

theorem leftJoinUsers_singleton (w : World) (h : (w.users.map fun u => u.id).Nodup)
    (key : Option Int) : ∃ x, leftJoinUsers w key = [x] := by
  have hlen := filter_id_length_le_one w.users h (fun u => decide (key = some u.id))
    (by
      intro u v hu hv
      have hu' : key = some u.id := by simpa using hu
      have hv' : key = some v.id := by simpa using hv
      have := hu'.symm.trans hv'
      simpa using this)
  unfold leftJoinUsers
  cases hf : List.filter (fun u => decide (key = some u.id)) w.users with
  | nil => exact ⟨none, rfl⟩
  | cons a t =>
    rw [hf] at hlen
    cases t with
    | nil => exact ⟨some a, rfl⟩
    | cons b t' => simp at hlen

theorem mem_joined_bug (env : Env) (w : World) (b : Bug) :
    b ∈ (getSLAViolations.joined env w).map (fun r => r.bug) ↔ b ∈ w.bugs := by
  simp only [getSLAViolations.joined, List.mem_map, List.mem_flatMap]
  constructor
  · rintro ⟨r, ⟨b', hb', u1, _, u2, _, hr⟩, rfl⟩
    rw [← hr]
    exact hb'
  · intro hb
    obtain ⟨u1, t1, h1⟩ := List.exists_cons_of_ne_nil (leftJoinUsers_ne_nil w (some b.reporter_id))
    obtain ⟨u2, t2, h2⟩ := List.exists_cons_of_ne_nil (leftJoinUsers_ne_nil w b.assigned_to)
    exact ⟨_, ⟨b, hb, u1, by simp [h1], u2, by simp [h2], rfl⟩, rfl⟩

theorem joined_bug_of_nodup (env : Env) (w : World) (h : (w.users.map fun u => u.id).Nodup) :
    (getSLAViolations.joined env w).map (fun r => r.bug) = w.bugs := by
  simp only [getSLAViolations.joined]
  induction w.bugs with
  | nil => rfl
  | cons b t ih =>
    obtain ⟨x1, h1⟩ := leftJoinUsers_singleton w h (some b.reporter_id)
    obtain ⟨x2, h2⟩ := leftJoinUsers_singleton w h b.assigned_to
    simp [List.flatMap_cons, h1, h2, ih]

theorem condition_iff (env : Env) (b : Bug) :
    getSLAViolations.condition env b = true ↔
      (b.status = "open" ∨ b.status = "in_progress")
        ∧ ((b.priority = "critical" ∧ (env.now - b.created_at).tdiv 3600 > 24)
          ∨ (b.priority = "high" ∧ (env.now - b.created_at).tdiv 3600 > 48)) := by
  simp [getSLAViolations.condition, timestampDiffHour]

theorem mem_results_bug (env : Env) (w : World) (b : Bug) :
    b ∈ (getSLAViolations.results env w).map (fun r => r.bug)
      ↔ b ∈ w.bugs ∧ getSLAViolations.condition env b = true := by
  rw [← mem_joined_bug env w b]
  simp only [getSLAViolations.results, List.mem_map, List.mem_insertionSort, List.mem_filter]
  constructor
  · rintro ⟨r, ⟨hr, hc⟩, rfl⟩
    exact ⟨⟨r, hr, rfl⟩, hc⟩
  · rintro ⟨⟨r, hr, rfl⟩, hc⟩
    exact ⟨r, ⟨hr, hc⟩, rfl⟩

theorem priorityRank_lt_of_le_of_ne (a b : String) (ha : a ∈ priorityValues)
    (hb : b ∈ priorityValues) (hle : rankLe a b) (hne : a ≠ b) : rankLt a b := by
  simp only [priorityValues, List.mem_cons, List.mem_singleton, List.not_mem_nil, or_false]
    at ha hb
  rcases ha with rfl | rfl | rfl | rfl <;> rcases hb with rfl | rfl | rfl | rfl <;>
    first
    | exact absurd rfl hne
    | (revert hle; decide)

theorem mem_priorityOrder_iff (a : String) : a ∈ priorityOrder ↔ a ∈ priorityValues := by
  simp only [priorityOrder, priorityValues, List.mem_cons, List.mem_singleton,
    List.not_mem_nil, or_false]
  tauto

/-- Sorting distinct valid priorities by rank gives the fixed order restricted to them. -/
theorem insertionSort_priorities (l : List String) (hnodup : l.Nodup)
    (hvalid : ∀ a ∈ l, a ∈ priorityValues) :
    l.insertionSort rankLe = priorityOrder.filter fun p => decide (p ∈ l) := by
  apply List.eq_of_perm_of_sorted (r := rankLt)
  · refine (List.perm_insertionSort rankLe l).trans ?_
    rw [List.perm_ext_iff_of_nodup hnodup
      (List.Nodup.filter _ (by decide : priorityOrder.Nodup))]
    intro a
    simp only [List.mem_filter, decide_eq_true_eq, mem_priorityOrder_iff]
    constructor
    · intro h
      exact ⟨hvalid a h, h⟩
    · intro h
      exact h.2
  · have hs : List.Sorted rankLe (l.insertionSort rankLe) := List.sorted_insertionSort rankLe l
    have hn : (l.insertionSort rankLe).Nodup :=
      (List.perm_insertionSort rankLe l).nodup_iff.mpr hnodup
    have hboth := List.Pairwise.and hs hn
    refine List.Pairwise.imp_of_mem ?_ hboth
    intro a b ha hb hab
    exact priorityRank_lt_of_le_of_ne a b
      (hvalid a ((List.mem_insertionSort rankLe).mp ha))
      (hvalid b ((List.mem_insertionSort rankLe).mp hb)) hab.1 hab.2
  · exact List.Pairwise.filter _ (by decide : List.Pairwise rankLt priorityOrder)

theorem map_priority_results (w : World) :
    (getBugsByPriority.results w).map (fun r => r.priority)
      = ((w.bugs.map fun b => b.priority).dedup).insertionSort rankLe := by
  unfold getBugsByPriority.results
  rw [List.map_insertionSort PriorityRow.before rankLe (fun r => r.priority)]
  · rw [List.map_map]
    have hf : ((fun r : PriorityRow => r.priority) ∘ getBugsByPriority.group w) = fun p => p := by
      funext p
      rfl
    rw [hf, List.map_id']
  · intro a _ b _
    exact Iff.rfl

theorem leftJoinBugs_fst (w : World) (u : User) (r : User × Option Bug)
    (hr : r ∈ leftJoinBugs w u) : r.1 = u := by
  unfold leftJoinBugs at hr
  split at hr
  · simp at hr
    rw [hr]
  · obtain ⟨b, _, rfl⟩ := List.mem_map.mp hr
    rfl

theorem leftJoinBugs_filterMap (w : World) (u : User) :
    (leftJoinBugs w u).filterMap (fun r => r.2)
      = w.bugs.filter fun b => b.assigned_to = some u.id := by
  unfold leftJoinBugs
  split
  · rename_i h
    rw [h]
    rfl
  · simp [List.filterMap_map, Function.comp_def]

theorem leftJoinBugs_ne_nil (w : World) (u : User) : leftJoinBugs w u ≠ [] := by
  unfold leftJoinBugs
  split
  · simp
  · rename_i bs h
    cases hf : List.filter (fun b => decide (b.assigned_to = some u.id)) w.bugs with
    | nil => exact absurd hf h
    | cons a t => simp

/-- Over a list of users with distinct ids, a `flatMap` that is empty away from `u` is the
value at `u`. -/
theorem flatMap_unique {β : Type} (l : List User) (hn : (l.map fun u => u.id).Nodup) (u : User)
    (hu : u ∈ l) (G : User → List β) (hG : ∀ v ∈ l, v.id ≠ u.id → G v = []) :
    l.flatMap G = G u := by
  induction l with
  | nil => simp at hu
  | cons a t ih =>
    rw [List.map_cons, List.nodup_cons] at hn
    rw [List.flatMap_cons]
    rcases List.mem_cons.mp hu with h | h
    · subst h
      have ht : t.flatMap G = [] := by
        rw [List.flatMap_eq_nil_iff]
        intro v hv
        apply hG v (List.mem_cons_of_mem _ hv)
        intro hid
        exact hn.1 (List.mem_map.mpr ⟨v, hv, hid⟩)
      rw [ht, List.append_nil]
    · have ha : G a = [] := by
        apply hG a (List.mem_cons_self _ _)
        intro hid
        exact hn.1 (List.mem_map.mpr ⟨u, h, hid.symm⟩)
      rw [ha, List.nil_append]
      exact ih hn.2 h fun v hv => hG v (List.mem_cons_of_mem _ hv)

/-- With distinct user ids, the bugs of the group of a developer are the bugs assigned to the
developer. -/
theorem group_bugs (w : World) (hkey : (w.users.map fun u => u.id).Nodup) (u : User)
    (hu : u ∈ w.users) (hrole : u.role = "developer") :
    (((getDeveloperPerformance.joined w).filter fun r =>
        (r.1.id, r.1.name) = (u.id, u.name)).filterMap fun r => r.2)
      = w.bugs.filter fun b => b.assigned_to = some u.id := by
  unfold getDeveloperPerformance.joined
  rw [List.filter_flatMap, List.filter_flatMap]
  rw [flatMap_unique w.users hkey u hu]
  · have hall : ((leftJoinBugs w u).filter fun r => decide (r.1.role = "developer")).filter
        (fun r => decide ((r.1.id, r.1.name) = (u.id, u.name))) = leftJoinBugs w u := by
      rw [List.filter_filter, List.filter_eq_self]
      intro r hr
      rw [leftJoinBugs_fst w u r hr]
      simp [hrole]
    rw [hall, leftJoinBugs_filterMap]
  · intro v _ hid
    rw [List.filter_eq_nil_iff]
    intro r hr
    have h1 := leftJoinBugs_fst w v r (List.mem_of_mem_filter hr)
    rw [h1]
    simp [hid]

theorem mem_developer_results (w : World) (r : DeveloperRow)
    (hr : r ∈ getDeveloperPerformance.results w) :
    ∃ u ∈ w.users, u.role = "developer"
      ∧ r = getDeveloperPerformance.group w (u.id, u.name) := by
  have h1 := (List.mem_insertionSort DeveloperRow.before).mp hr
  obtain ⟨g, hg, rfl⟩ := List.mem_map.mp h1
  obtain ⟨row, hrow, rfl⟩ := List.mem_map.mp (List.mem_dedup.mp hg)
  unfold getDeveloperPerformance.joined at hrow
  obtain ⟨hmem, hrole⟩ := List.mem_filter.mp hrow
  obtain ⟨u, hu, hin⟩ := List.mem_flatMap.mp hmem
  have h1 := leftJoinBugs_fst w u row hin
  rw [h1] at hrole ⊢
  exact ⟨u, hu, by simpa using hrole, rfl⟩

theorem mem_joined_key (w : World) (g : Int × String) :
    g ∈ (getDeveloperPerformance.joined w).map (fun r => (r.1.id, r.1.name))
      ↔ ∃ u ∈ w.users, u.role = "developer" ∧ g = (u.id, u.name) := by
  constructor
  · intro hg
    obtain ⟨row, hrow, rfl⟩ := List.mem_map.mp hg
    unfold getDeveloperPerformance.joined at hrow
    obtain ⟨hmem, hrole⟩ := List.mem_filter.mp hrow
    obtain ⟨u, hu, hin⟩ := List.mem_flatMap.mp hmem
    have h1 := leftJoinBugs_fst w u row hin
    rw [h1] at hrole ⊢
    exact ⟨u, hu, by simpa using hrole, rfl⟩
  · rintro ⟨u, hu, hrole, rfl⟩
    obtain ⟨row, t, hrt⟩ := List.exists_cons_of_ne_nil (leftJoinBugs_ne_nil w u)
    have hin : row ∈ leftJoinBugs w u := by simp [hrt]
    have h1 := leftJoinBugs_fst w u row hin
    refine List.mem_map.mpr ⟨row, ?_, by rw [h1]⟩
    unfold getDeveloperPerformance.joined
    refine List.mem_filter.mpr ⟨List.mem_flatMap.mpr ⟨u, hu, hin⟩, ?_⟩
    rw [h1]
    simpa using hrole

/-- With distinct user ids, the keys of the rows of the report are those of the developers. -/
theorem developer_keys_perm (w : World) (hkey : (w.users.map fun u => u.id).Nodup) :
    List.Perm ((getDeveloperPerformance.results w).map fun r => (r.id, r.name))
      ((w.users.filter fun u => u.role = "developer").map fun u => (u.id, u.name)) := by
  have hsort : List.Perm ((getDeveloperPerformance.results w).map fun r => (r.id, r.name))
      ((((getDeveloperPerformance.joined w).map fun r => (r.1.id, r.1.name)).dedup).map
        fun g => ((getDeveloperPerformance.group w g).id,
          (getDeveloperPerformance.group w g).name)) := by
    have := (List.perm_insertionSort DeveloperRow.before
      ((((getDeveloperPerformance.joined w).map fun r => (r.1.id, r.1.name)).dedup).map
        (getDeveloperPerformance.group w))).map fun r => (r.id, r.name)
    simpa [getDeveloperPerformance.results, List.map_map, Function.comp_def] using this
  have hid : ((((getDeveloperPerformance.joined w).map fun r => (r.1.id, r.1.name)).dedup).map
      fun g => ((getDeveloperPerformance.group w g).id,
        (getDeveloperPerformance.group w g).name))
      = ((getDeveloperPerformance.joined w).map fun r => (r.1.id, r.1.name)).dedup := by
    have hf : (fun g : Int × String => ((getDeveloperPerformance.group w g).id,
        (getDeveloperPerformance.group w g).name)) = fun g => g := by
      funext g
      rfl
    rw [hf, List.map_id']
  rw [hid] at hsort
  refine hsort.trans ?_
  have hnd : ((w.users.filter fun u => u.role = "developer").map
      fun u => (u.id, u.name)).Nodup := by
    have h1 : ((w.users.filter fun u => u.role = "developer").map fun u => u.id).Nodup :=
      (List.Nodup.sublist (List.Sublist.map _ (List.filter_sublist _)) hkey)
    have h2 : (((w.users.filter fun u => u.role = "developer").map
        fun u => (u.id, u.name)).map Prod.fst).Nodup := by
      simpa [List.map_map, Function.comp_def] using h1
    exact List.Nodup.of_map _ h2
  rw [List.perm_ext_iff_of_nodup (List.nodup_dedup _) hnd]
  intro g
  rw [List.mem_dedup, mem_joined_key]
  simp only [List.mem_map, List.mem_filter, decide_eq_true_eq]
  constructor
  · rintro ⟨u, hu, hrole, rfl⟩
    exact ⟨u, ⟨hu, hrole⟩, rfl⟩
  · rintro ⟨u, ⟨hu, hrole⟩, rfl⟩
    exact ⟨u, hu, hrole, rfl⟩

theorem JSValue.or_empty_toJSString (dateString : Int → String) (v : JSValue) :
    (v.or (.str "")).toJSString dateString
      = if v.truthy = true then v.toJSString dateString else "" := by
  unfold JSValue.or
  split_ifs <;> rfl

theorem mem_joined_hours (env : Env) (w : World) (r : SLARow)
    (hr : r ∈ getSLAViolations.joined env w) :
    r.bug ∈ w.bugs ∧ r.hours_open = timestampDiffHour r.bug.created_at env.now := by
  simp only [getSLAViolations.joined, List.mem_flatMap, List.mem_map] at hr
  obtain ⟨b, hb, u1, _, u2, _, rfl⟩ := hr
  exact ⟨hb, rfl⟩

/-! ## Lemmas on `getAllBugs` -/

theorem getAllBugs_joined_bug (w : World) (h : (w.users.map fun u => u.id).Nodup) :
    (getAllBugs.joined w).map (fun r => r.bug) = w.bugs := by
  simp only [getAllBugs.joined]
  induction w.bugs with
  | nil => rfl
  | cons b t ih =>
    obtain ⟨x1, h1⟩ := leftJoinUsers_singleton w h (some b.reporter_id)
    obtain ⟨x2, h2⟩ := leftJoinUsers_singleton w h b.assigned_to
    simp [List.flatMap_cons, h1, h2, ih]

/-- With distinct user ids, the bugs of the sorted rows are the matching bugs, newest first. -/
theorem getAllBugs_sorted_bug (q : BugsQuery) (w : World)
    (h : (w.users.map fun u => u.id).Nodup) :
    (((getAllBugs.joined w).filter fun r =>
        getAllBugs.condition q r.bug).insertionSort BugListRow.before).map (fun r => r.bug)
      = getAllBugs.matching q w := by
  rw [List.map_insertionSort BugListRow.before Bug.newerFirst (fun r => r.bug)]
  · have hfm := List.filter_map (f := fun r : BugListRow => r.bug)
      (l := getAllBugs.joined w) (p := getAllBugs.condition q)
    rw [getAllBugs_joined_bug w h] at hfm
    unfold getAllBugs.matching
    rw [hfm]
    rfl
  · intro a _ b _
    exact Iff.rfl

theorem toNumber_of_safe (x : Int) (h0 : 0 ≤ x) (h1 : x ≤ maxSafeInteger) : toNumber x = x := by
  unfold toNumber
  rw [if_pos]
  unfold maxSafeInteger at h1
  omega

theorem parseIntNumber_of_safe (x : Int) (h0 : 0 ≤ x) (h1 : x ≤ maxSafeInteger) :
    parseIntNumber x = x := by
  unfold parseIntNumber
  rw [if_pos]
  unfold maxSafeInteger at h1
  omega

/-- The offset of a page and a page size that JavaScript computes exactly. -/
theorem getAllBugs_offset_of_safe (q : BugsQuery) (p n : Int)
    (hpage : q.page.getD 1 = p) (hlimit : q.limit.getD 10 = n) (hp : 1 ≤ p) (hn : 1 ≤ n)
    (hpsafe : p ≤ maxSafeInteger) (hnsafe : n ≤ maxSafeInteger)
    (hsafe : (p - 1) * n ≤ maxSafeInteger) :
    parseIntNumber (getAllBugs.offset q) = (p - 1) * n ∧ toNumber (q.limit.getD 10) = n := by
  have h0 : 0 ≤ (p - 1) * n := Int.mul_nonneg (by omega) (by omega)
  unfold getAllBugs.offset
  rw [hpage, hlimit, toNumber_of_safe p (by omega) hpsafe,
    toNumber_of_safe (p - 1) (by omega) (by omega), toNumber_of_safe n (by omega) hnsafe,
    toNumber_of_safe _ h0 hsafe, parseIntNumber_of_safe _ h0 hsafe]
  exact ⟨rfl, rfl⟩

theorem getAllBugs_bugs_bug (q : BugsQuery) (w : World)
    (h : (w.users.map fun u => u.id).Nodup) :
    (getAllBugs.bugs q w).map (fun r => r.bug)
      = ((getAllBugs.matching q w).drop (parseIntNumber (getAllBugs.offset q)).toNat).take
          (toNumber (q.limit.getD 10)).toNat := by
  unfold getAllBugs.bugs
  simp only [List.map_take, List.map_drop]
  rw [getAllBugs_sorted_bug q w h]

theorem getAllBugs_condition_iff (q : BugsQuery) (b : Bug) :
    getAllBugs.condition q b = true ↔
      (∀ s, q.status = some s → s ≠ "" → b.status = s)
        ∧ (∀ s, q.priority = some s → s ≠ "" → b.priority = s)
        ∧ (∀ s, q.assigned_to = some s → s ≠ "" →
            ∃ a, decimalInteger s = some a ∧ b.assigned_to = some a) := by
  have htext : ∀ (o : Option String) (c : String),
      (if (queryValue o).truthy then sqlTextEq c (queryValue o) else true) = true
        ↔ ∀ s, o = some s → s ≠ "" → c = s := by
    intro o c
    cases o with
    | none => simp [queryValue, JSValue.truthy]
    | some s =>
      by_cases hs : s = ""
      · simp [queryValue, JSValue.truthy, hs]
      · simp [queryValue, JSValue.truthy, hs, sqlTextEq]
  have hint : (if (queryValue q.assigned_to).truthy
        then sqlIntEq b.assigned_to (queryValue q.assigned_to) else true) = true
        ↔ ∀ s, q.assigned_to = some s → s ≠ "" →
            ∃ a, decimalInteger s = some a ∧ b.assigned_to = some a := by
    cases hq : q.assigned_to with
    | none => simp [queryValue, JSValue.truthy]
    | some s =>
      by_cases hs : s = ""
      · simp [queryValue, JSValue.truthy, hs]
      · cases hb : b.assigned_to with
        | none => simp [queryValue, JSValue.truthy, hs, sqlIntEq, sqlInt]
        | some a =>
          cases hk : decimalInteger s with
          | none => simp [queryValue, JSValue.truthy, hs, sqlIntEq, sqlInt, hk]
          | some k =>
            simp [queryValue, JSValue.truthy, hs, sqlIntEq, sqlInt, hk]
            exact eq_comm
  unfold getAllBugs.condition
  rw [Bool.and_eq_true, Bool.and_eq_true, htext, htext, hint, and_assoc]

/-- Cutting a list into `k` pages of `n` elements and gluing the pages gives the list back,
when `k` pages are enough. -/
theorem flatMap_pages {α : Type} (n : Nat) (k : Nat) (l : List α) (hk : l.length ≤ k * n) :
    (List.range k).flatMap (fun i => (l.drop (i * n)).take n) = l := by
  induction k generalizing l with
  | zero =>
    have : l.length = 0 := by omega
    simp [List.length_eq_zero.mp this]
  | succ k ih =>
    rw [List.range_succ_eq_map, List.flatMap_cons, List.flatMap_map]
    have hrest : (List.range k).flatMap (fun i => (l.drop (Nat.succ i * n)).take n)
        = l.drop n := by
      have hlen : (l.drop n).length ≤ k * n := by
        rw [List.length_drop]
        have : (k + 1) * n = k * n + n := Nat.succ_mul k n
        omega
      have := ih (l.drop n) hlen
      rw [← this]
      congr 1
      funext i
      rw [List.drop_drop, Nat.succ_mul, Nat.add_comm]
    simp only [Function.comp_def] at hrest ⊢
    rw [hrest]
    simp

theorem mathCeilDiv_bounds (a b : Int) (hb : 0 < b) :
    a ≤ mathCeilDiv a b * b ∧ mathCeilDiv a b * b < a + b := by
  unfold mathCeilDiv
  rw [Int.fdiv_eq_ediv _ (Int.le_of_lt hb)]
  have h1 := Int.ediv_mul_le (-a) (Int.ne_of_gt hb)
  have h2 := Int.lt_ediv_add_one_mul_self (-a) hb
  constructor
  · nlinarith
  · nlinarith

theorem getAllBugs_matching_length (q : BugsQuery) (w : World) :
    ((getAllBugs.matching q w).length : Int) = getAllBugs.total q w := by
  unfold getAllBugs.matching getAllBugs.total
  rw [List.length_insertionSort]
  rfl

/-- The bugs of page `p`, for a page size and a page number of at least 1 that JavaScript
computes exactly. -/
theorem getAllBugs_page_bugs (q : BugsQuery) (w : World) (p : Int) (N : Nat)
    (hkey : (w.users.map fun u => u.id).Nodup) (hlimit : q.limit.getD 10 = (N : Int))
    (hp : 1 ≤ p) (hN : 1 ≤ N) (hpsafe : p ≤ maxSafeInteger)
    (hNsafe : (N : Int) ≤ maxSafeInteger) (hsafe : (p - 1) * (N : Int) ≤ maxSafeInteger) :
    (getAllBugs.bugs { q with page := some p } w).map (fun r => r.bug)
      = ((getAllBugs.matching q w).drop ((p - 1).toNat * N)).take N := by
  have h := getAllBugs_bugs_bug { q with page := some p } w hkey
  have hm : getAllBugs.matching { q with page := some p } w = getAllBugs.matching q w := rfl
  have hl : ({ q with page := some p } : BugsQuery).limit.getD 10 = (N : Int) := hlimit
  have hpg : ({ q with page := some p } : BugsQuery).page.getD 1 = p := rfl
  obtain ⟨ho, hlim⟩ := getAllBugs_offset_of_safe { q with page := some p } p (N : Int) hpg hl hp
    (by omega) hpsafe hNsafe hsafe
  rw [hm, ho, hlim] at h
  rw [h]
  have hoff : ((p - 1) * (N : Int)).toNat = (p - 1).toNat * N := by
    obtain ⟨k, hk⟩ := Int.eq_ofNat_of_zero_le (by omega : 0 ≤ p - 1)
    rw [hk]
    have hcast : ((k : Int) * (N : Int)) = ((k * N : Nat) : Int) := by push_cast; rfl
    rw [hcast, Int.toNat_ofNat, Int.toNat_ofNat]
  rw [hoff, Int.toNat_ofNat]

theorem flatMap_eq_of_mem {α β : Type} (l : List α) (f g : α → List β)
    (h : ∀ a ∈ l, f a = g a) : l.flatMap f = l.flatMap g := by
  induction l with
  | nil => rfl
  | cons a t ih =>
    rw [List.flatMap_cons, List.flatMap_cons, h a (List.mem_cons_self _ _),
      ih fun b hb => h b (List.mem_cons_of_mem _ hb)]

/-! ## Lemmas on `getBugsPerDay` -/

theorem map_date_results (env : Env) (days : Option Int) (w : World) :
    (getBugsPerDay.results env days w).map (fun r => r.date)
      = (((w.bugs.filter (getBugsPerDay.condition env (days.getD 30))).map fun b =>
          sqlDate b.created_at).dedup).insertionSort laterDay := by
  unfold getBugsPerDay.results
  rw [List.map_insertionSort DayRow.before laterDay (fun r => r.date)]
  · rw [List.map_map]
    have hf : ((fun r : DayRow => r.date) ∘ getBugsPerDay.group env (days.getD 30) w)
        = fun d => d := by
      funext d
      rfl
    rw [hf, List.map_id']
  · intro a _ b _
    exact Iff.rfl

/-- Sorting distinct days in descending order gives a strictly descending list. -/
theorem insertionSort_days_strict (l : List Int) (hnodup : l.Nodup) :
    List.Pairwise (fun a b : Int => b < a) (l.insertionSort laterDay) := by
  have hs : List.Sorted laterDay (l.insertionSort laterDay) := List.sorted_insertionSort laterDay l
  have hn : (l.insertionSort laterDay).Nodup :=
    (List.perm_insertionSort laterDay l).nodup_iff.mpr hnodup
  refine List.Pairwise.imp ?_ (List.Pairwise.and hs hn)
  intro a b hab
  have h1 : b ≤ a := hab.1
  have h2 : a ≠ b := hab.2
  omega

theorem count_day (l : List Bug) (d : Int) :
    (l.map fun b => sqlDate b.created_at).count d
      = (l.filter fun b => decide (sqlDate b.created_at = d)).length := by
  induction l with
  | nil => rfl
  | cons b t ih =>
    by_cases h : sqlDate b.created_at = d
    · simp [List.filter, h, ih]
    · simp [List.filter, List.count_cons, h, ih]

/-- The counts of the rows add up to the number of bugs in the window. -/
theorem sum_count_results (env : Env) (days : Option Int) (w : World) :
    ((getBugsPerDay.results env days w).map fun r => r.count).sum
      = (w.bugs.filter (getBugsPerDay.condition env (days.getD 30))).length := by
  have hperm : List.Perm ((getBugsPerDay.results env days w).map fun r => r.count)
      ((((w.bugs.filter (getBugsPerDay.condition env (days.getD 30))).map fun b =>
          sqlDate b.created_at).dedup).map fun d =>
        ((w.bugs.filter (getBugsPerDay.condition env (days.getD 30))).map fun b =>
          sqlDate b.created_at).count d) := by
    have h := (List.perm_insertionSort DayRow.before
      ((((w.bugs.filter (getBugsPerDay.condition env (days.getD 30))).map fun b =>
          sqlDate b.created_at).dedup).map
        (getBugsPerDay.group env (days.getD 30) w))).map fun r => r.count
    rw [List.map_map] at h
    have hf : ((fun r : DayRow => r.count) ∘ getBugsPerDay.group env (days.getD 30) w)
        = fun d => ((w.bugs.filter (getBugsPerDay.condition env (days.getD 30))).map fun b =>
            sqlDate b.created_at).count d := by
      funext d
      rw [count_day]
      rfl
    rw [hf] at h
    exact h
  rw [hperm.sum_eq, List.sum_map_count_dedup_eq_length, List.length_map]

/-- When the created timestamps are distinct, `ORDER BY created_at DESC` has one result: any
two descending arrangements of the same bugs are equal. -/
theorem newest_first_unique (l m : List Bug)
    (hl : List.Pairwise (fun a b : Bug => b.created_at ≤ a.created_at) l)
    (hm : List.Pairwise (fun a b : Bug => b.created_at ≤ a.created_at) m)
    (hperm : List.Perm l m)
    (hdist : List.Pairwise (fun a b : Bug => a.created_at ≠ b.created_at) l) : l = m := by
  have hdist' : List.Pairwise (fun a b : Bug => a.created_at ≠ b.created_at) m :=
    hperm.pairwise hdist fun h => Ne.symm h
  have strict : ∀ k : List Bug,
      List.Pairwise (fun a b : Bug => b.created_at ≤ a.created_at) k →
      List.Pairwise (fun a b : Bug => a.created_at ≠ b.created_at) k →
      List.Sorted Bug.strictlyNewer k := by
    intro k h1 h2
    refine List.Pairwise.imp ?_ (List.Pairwise.and h1 h2)
    intro a b hab
    have h3 : b.created_at ≤ a.created_at := hab.1
    have h4 : a.created_at ≠ b.created_at := hab.2
    show b.created_at < a.created_at
    omega
  exact List.eq_of_perm_of_sorted hperm (strict l hl hdist) (strict m hm hdist')

/-! ## The claims -/

/-- C1: for an existing bug (`current` is the snapshot `currentBug[0]`) and a JSON body with at
least one recognised field, the history rows `updateBug` inserts are, in the order of the keys of
the body, one row for each key whose value differs from the snapshot's and none for any other
key; so their number is the number of differing fields of the patch. -/
theorem updateBug_history_count (env : Env) (id : Int) (body : Body) (user_id : Int)
    (w : World) (current : Bug) (rest : List Bug)
    (hcur : selectBug w id = current :: rest)
    (hjson : ∀ p ∈ body, p.2.isJSON = true)
    (hrec : ∃ f ∈ updateBug.fields, f ∈ Object.keys body) :
    ∃ added : List HistoryRow,
      (world (updateBug env id body user_id w)).bug_history = w.bug_history ++ added
      ∧ added.map (fun r => r.field_changed)
          = (Object.keys body).filter (fun f => decide (current.get f ≠ body.get f))
      ∧ added.length
          = ((Object.keys body).filter (fun f => decide (current.get f ≠ body.get f))).length := by
  have hup : updateBug.updates body ≠ [] := by
    obtain ⟨f, hf, hk⟩ := hrec
    exact updates_ne_nil body ⟨f, hf, Body.get_ne_undefined body hjson f hk⟩
  have hfilter : ((Object.keys body).filter fun f => (current.get f).strictNe (body.get f))
      = (Object.keys body).filter (fun f => decide (current.get f ≠ body.get f)) := by
    apply List.filter_congr
    intro f hf
    exact JSValue.strictNe_eq_of_isJSON _ _ (Body.get_isJSON body hjson f hf)
  refine ⟨_, updateBug_history env id body user_id w current rest hcur hup, ?_, ?_⟩
  · rw [hfilter, List.map_map]
    have hname : ((fun r : HistoryRow => r.field_changed)
        ∘ updateBug.historyRow env id user_id current body) = fun f => f := by
      funext f
      rfl
    rw [hname, List.map_id']
  · rw [hfilter, List.length_map]

/-- Witness of C1: a patch that changes the status and repeats the priority logs one row. -/
theorem updateBug_history_count_witness :
    ∃ added : List HistoryRow,
      (world (updateBug Example.env 1
          [("status", .str "in_progress"), ("priority", .str "critical")] 2
          Example.world)).bug_history = Example.world.bug_history ++ added
      ∧ added.map (fun r => r.field_changed)
          = (Object.keys [("status", JSValue.str "in_progress"), ("priority", .str "critical")]).filter
              (fun f => decide (Example.bug.get f
                ≠ Body.get [("status", .str "in_progress"), ("priority", .str "critical")] f))
      ∧ added.length
          = ((Object.keys [("status", JSValue.str "in_progress"), ("priority", .str "critical")]).filter
              (fun f => decide (Example.bug.get f
                ≠ Body.get [("status", .str "in_progress"), ("priority", .str "critical")] f))).length :=
  updateBug_history_count Example.env 1 [("status", .str "in_progress"), ("priority", .str "critical")]
    2 Example.world Example.bug [] (by decide) (by decide) ⟨"status", by decide, by decide⟩

/-- C2, counterexample: a bug resolved at time 100 receives the patch `status: resolved` at time
1000, and its resolved timestamp is overwritten with 1000. -/
theorem updateBug_resolved_at_overwritten :
    (selectBug Example.resolvedWorld 1).map (fun b => b.resolved_at) = [some 100]
      ∧ response (updateBug Example.env 1 [("status", .str "resolved")] 2 Example.resolvedWorld)
          = .ok 200 { Example.resolvedBug with resolved_at := some 1000 }
      ∧ (selectBug
            (world (updateBug Example.env 1 [("status", .str "resolved")] 2 Example.resolvedWorld))
            1).map (fun b => b.resolved_at) = [some 1000] := by
  decide

/-- C2, amended: an `updateBug` call on an existing bug whose patch sets `status` to `resolved`
sets the resolved timestamp to the current time, whether or not it was set before; a call whose
patch has a recognised field but does not set `status` to `resolved` leaves it unchanged. The
row in question is both the one stored and the one returned. -/
theorem updateBug_resolved_at (env : Env) (id : Int) (body : Body) (user_id : Int)
    (w : World) (current : Bug) (rest : List Bug)
    (hcur : selectBug w id = current :: rest)
    (hrec : ∃ f ∈ updateBug.fields, body.get f ≠ .undefined) :
    ∃ (updated : Bug) (rest' : List Bug),
      selectBug (world (updateBug env id body user_id w)) id = updated :: rest'
      ∧ response (updateBug env id body user_id w) = .ok 200 updated
      ∧ (body.get "status" = .str "resolved" → updated.resolved_at = some env.now)
      ∧ (body.get "status" ≠ .str "resolved" → updated.resolved_at = current.resolved_at) := by
  have hup := updates_ne_nil body hrec
  obtain ⟨hsel, hres⟩ := updateBug_reload env id body user_id w current rest hcur hup
  refine ⟨_, _, hsel, hres, ?_, ?_⟩
  · intro h
    rw [updated_eq]
    simp [h, JSValue.strictEq]
  · intro h
    rw [updated_eq]
    have hs : (body.get "status").strictEq (.str "resolved") = false := by
      rw [JSValue.strictEq_eq_of_isJSON _ _ (by rfl)]
      simpa using h
    simp [hs]

/-- Witness of the amended C2: resolving the open bug of the fixtures. -/
theorem updateBug_resolved_at_witness :
    ∃ (updated : Bug) (rest' : List Bug),
      selectBug (world (updateBug Example.env 1 [("status", .str "resolved")] 2 Example.world)) 1
        = updated :: rest'
      ∧ response (updateBug Example.env 1 [("status", .str "resolved")] 2 Example.world)
        = .ok 200 updated
      ∧ (Body.get [("status", .str "resolved")] "status" = .str "resolved"
          → updated.resolved_at = some Example.env.now)
      ∧ (Body.get [("status", .str "resolved")] "status" ≠ .str "resolved"
          → updated.resolved_at = Example.bug.resolved_at) :=
  updateBug_resolved_at Example.env 1 [("status", .str "resolved")] 2 Example.world Example.bug []
    (by decide) ⟨"status", by decide, by decide⟩

/-- C3, the code at the failing input: the patch `assigned_to: 0` passes the update schema; applied
twice in succession to a bug assigned to user 2, it inserts a history row on the first
application (the bug is unassigned) and another row on the second, which records the empty
string as both old and new value. -/
theorem updateBug_twice_unassign_zero :
    schemas.updateBug [("assigned_to", .num 0)] = true
      ∧ (world (updateBug Example.env 1 [("assigned_to", .num 0)] 2
          Example.assignedWorld)).bug_history
          = [{ bug_id := 1, user_id := 2, field_changed := "assigned_to",
               old_value := "2", new_value := "" }]
      ∧ (world (updateBug Example.env 1 [("assigned_to", .num 0)] 2
            (world (updateBug Example.env 1 [("assigned_to", .num 0)] 2
              Example.assignedWorld)))).bug_history
          = [{ bug_id := 1, user_id := 2, field_changed := "assigned_to",
               old_value := "2", new_value := "" },
             { bug_id := 1, user_id := 2, field_changed := "assigned_to",
               old_value := "", new_value := "" }] := by
  decide

/-- C4: for an existing bug and a body in which none of `title`, `description`, `priority`,
`severity`, `status`, `assigned_to` is present, `updateBug` answers 400 `No updates provided`
and leaves the world as it was: no history row, no notification, no change to any bug. -/
theorem updateBug_no_updates (env : Env) (id : Int) (body : Body) (user_id : Int)
    (w : World) (current : Bug) (rest : List Bug)
    (hcur : selectBug w id = current :: rest)
    (hnone : ∀ f ∈ updateBug.fields, f ∉ Object.keys body) :
    response (updateBug env id body user_id w) = .error 400 "No updates provided"
      ∧ world (updateBug env id body user_id w) = w
      ∧ (world (updateBug env id body user_id w)).bug_history = w.bug_history
      ∧ (world (updateBug env id body user_id w)).sent = w.sent
      ∧ (world (updateBug env id body user_id w)).bugs = w.bugs := by
  have hnil : updateBug.updates body = [] :=
    updates_eq_nil body fun f hf => Body.get_undefined_of_not_mem_keys body f (hnone f hf)
  have h : updateBug env id body user_id w = (w, .error 400 "No updates provided") := by
    unfold updateBug
    simp [hcur, hnil]
  simp [h]

/-- Witness of C4: a body whose only property is not a recognised field. -/
theorem updateBug_no_updates_witness :
    response (updateBug Example.env 1 [("comment", .str "hello")] 2 Example.world)
        = .error 400 "No updates provided"
      ∧ world (updateBug Example.env 1 [("comment", .str "hello")] 2 Example.world)
        = Example.world
      ∧ (world (updateBug Example.env 1 [("comment", .str "hello")] 2 Example.world)).bug_history
        = Example.world.bug_history
      ∧ (world (updateBug Example.env 1 [("comment", .str "hello")] 2 Example.world)).sent
        = Example.world.sent
      ∧ (world (updateBug Example.env 1 [("comment", .str "hello")] 2 Example.world)).bugs
        = Example.world.bugs :=
  updateBug_no_updates Example.env 1 [("comment", .str "hello")] 2 Example.world Example.bug []
    (by decide) (by decide)

/-- C5, counterexample: the patch `assigned_to: "2"`, a numeric string, passes the update schema
and reaches the controller unconverted; on a bug already assigned to user 2 the test
`"2" !== 2` holds, and the call sends an assignment notification to user 2 although the assignee
is the same before and after. -/
theorem updateBug_same_assignee_string_notified :
    schemas.updateBug [("assigned_to", .str "2")] = true
      ∧ (selectBug Example.assignedWorld 1).map (fun b => b.assigned_to) = [some 2]
      ∧ response (updateBug Example.env 1 [("assigned_to", .str "2")] 4 Example.assignedWorld)
          = .ok 200 Example.assignedBug
      ∧ (world (updateBug Example.env 1 [("assigned_to", .str "2")] 4
          Example.assignedWorld)).sent
          = [.bugAssignment Example.assignedBug Example.john] := by
  decide

/-- C5, amended: for an existing bug and a patch that has an assignee. When the patch carries
the id as a number: if it is the id of an existing user (a non-zero key of the users table)
and differs from the bug's prior assignee, which may be none, the call sends exactly one
assignment notification, addressed to that user; if the bug is already assigned to that id,
the call sends none. When the patch carries the id as a numeral string, the call sends
exactly one assignment notification to the user of that id, whoever the prior assignee is. -/
theorem updateBug_assignment_notification (env : Env) (id : Int) (body : Body) (user_id : Int)
    (w : World) (current : Bug) (rest : List Bug)
    (hcur : selectBug w id = current :: rest)
    (hpresent : body.get "assigned_to" ≠ .undefined) :
    ∃ (updated : Bug) (ns : List Notification),
      response (updateBug env id body user_id w) = .ok 200 updated
      ∧ (world (updateBug env id body user_id w)).sent = w.sent ++ ns
      ∧ (∀ (a : Int) (developer : User) (others : List User),
          body.get "assigned_to" = .num a →
          selectUser w (.num a) = developer :: others → developer.id ≠ 0 →
          current.assigned_to ≠ some a →
            ns.filter Notification.isAssignment = [.bugAssignment updated developer]
            ∧ (Notification.bugAssignment updated developer).mail.recipient = developer.email
            ∧ updated.assigned_to = some a)
      ∧ (∀ a : Int, body.get "assigned_to" = .num a → current.assigned_to = some a →
          ns.filter Notification.isAssignment = [])
      ∧ (∀ (s : String) (a : Int) (developer : User) (others : List User),
          body.get "assigned_to" = .str s → s ≠ "" → decimalInteger s = some a →
          selectUser w (.num a) = developer :: others →
            ns.filter Notification.isAssignment = [.bugAssignment updated developer]
            ∧ (Notification.bugAssignment updated developer).mail.recipient = developer.email
            ∧ updated.assigned_to = some a) := by
  have hup : updateBug.updates body ≠ [] :=
    updates_ne_nil body ⟨"assigned_to", by simp [updateBug.fields], hpresent⟩
  refine ⟨_, _, (updateBug_reload env id body user_id w current rest hcur hup).2,
    updateBug_sent env id body user_id w current rest hcur hup, ?_, ?_, ?_⟩
  · intro a developer others ha hdev hid hne
    have ha0 : a ≠ 0 := by
      rw [← selectUser_id w a developer others hdev]
      exact hid
    have hget : current.get "assigned_to" ≠ .num a := by
      cases hc : current.assigned_to with
      | none => simp [Bug.get, hc]
      | some c =>
        have : c ≠ a := by
          intro h
          exact hne (by rw [hc, h])
        simp [Bug.get, hc, this]
    refine ⟨?_, rfl, ?_⟩
    · rw [List.filter_append, filter_isAssignment_statusSent, List.append_nil]
      have hcond : ((JSValue.num a).truthy
          && (JSValue.num a).strictNe (current.get "assigned_to")) = true := by
        cases hg : current.get "assigned_to" <;>
          simp_all [JSValue.truthy, JSValue.strictNe, JSValue.strictEq]
        intro h
        exact hget (by rw [h])
      simp [updateBug.assignmentSent, ha, hcond, hdev, Notification.isAssignment]
    · rw [updated_eq]
      simp [ha, JSValue.strictNe, JSValue.strictEq, JSValue.or, JSValue.truthy, ha0, sqlInt]
  · intro a ha hsame
    rw [List.filter_append, filter_isAssignment_statusSent, List.append_nil]
    have hcond : (JSValue.num a).strictNe (current.get "assigned_to") = false := by
      simp [Bug.get, hsame, JSValue.strictNe, JSValue.strictEq]
    simp [updateBug.assignmentSent, ha, hcond]
  · intro s a developer others hs hs0 hint hdev
    have hsel : selectUser w (.str s) = developer :: others := by
      have h1 : selectUser w (.str s) = selectUser w (.num a) := by
        simp [selectUser, sqlInt, hint]
      rw [h1, hdev]
    have hcond : ((JSValue.str s).truthy
        && (JSValue.str s).strictNe (current.get "assigned_to")) = true := by
      cases hc : current.assigned_to <;>
        simp [Bug.get, hc, JSValue.truthy, JSValue.strictNe, JSValue.strictEq, hs0]
    refine ⟨?_, rfl, ?_⟩
    · rw [List.filter_append, filter_isAssignment_statusSent, List.append_nil]
      simp [updateBug.assignmentSent, hs, hcond, hsel, Notification.isAssignment]
    · rw [updated_eq]
      simp [hs, JSValue.strictNe, JSValue.strictEq, JSValue.or, JSValue.truthy, hs0, sqlInt,
        hint]

/-- Witness of the amended C5: assigning the unassigned bug of the fixtures to developer 2. -/
theorem updateBug_assignment_notification_witness :
    ∃ (updated : Bug) (ns : List Notification),
      response (updateBug Example.env 1 [("assigned_to", .num 2)] 4 Example.world) = .ok 200 updated
      ∧ (world (updateBug Example.env 1 [("assigned_to", .num 2)] 4 Example.world)).sent
          = Example.world.sent ++ ns
      ∧ (∀ (a : Int) (developer : User) (others : List User),
          Body.get [("assigned_to", .num 2)] "assigned_to" = .num a →
          selectUser Example.world (.num a) = developer :: others → developer.id ≠ 0 →
          Example.bug.assigned_to ≠ some a →
            ns.filter Notification.isAssignment = [.bugAssignment updated developer]
            ∧ (Notification.bugAssignment updated developer).mail.recipient = developer.email
            ∧ updated.assigned_to = some a)
      ∧ (∀ a : Int, Body.get [("assigned_to", .num 2)] "assigned_to" = .num a →
          Example.bug.assigned_to = some a → ns.filter Notification.isAssignment = [])
      ∧ (∀ (s : String) (a : Int) (developer : User) (others : List User),
          Body.get [("assigned_to", .num 2)] "assigned_to" = .str s → s ≠ "" →
          decimalInteger s = some a →
          selectUser Example.world (.num a) = developer :: others →
            ns.filter Notification.isAssignment = [.bugAssignment updated developer]
            ∧ (Notification.bugAssignment updated developer).mail.recipient = developer.email
            ∧ updated.assigned_to = some a) :=
  updateBug_assignment_notification Example.env 1 [("assigned_to", .num 2)] 4 Example.world
    Example.bug [] (by decide) (by decide)

/-- C6: for an existing bug whose reporter, as the snapshot names it, is a user of the store:
a patch whose `status` is one of the schema's values and differs from the snapshot's status
sends exactly one status-change notification, addressed to that reporter and carrying the new
status, whatever the patch does to the assignee; a patch whose `status` equals the snapshot's,
or that has no `status`, sends no status-change notification. -/
theorem updateBug_status_notification (env : Env) (id : Int) (body : Body) (user_id : Int)
    (w : World) (current : Bug) (rest : List Bug) (reporter : User) (others : List User)
    (hcur : selectBug w id = current :: rest)
    (hrec : ∃ f ∈ updateBug.fields, body.get f ≠ .undefined)
    (hrep : selectUser w (.num current.reporter_id) = reporter :: others) :
    ∃ (updated : Bug) (ns : List Notification),
      response (updateBug env id body user_id w) = .ok 200 updated
      ∧ (world (updateBug env id body user_id w)).sent = w.sent ++ ns
      ∧ (∀ s : String, body.get "status" = .str s → s ∈ statusValues → s ≠ current.status →
            ns.filter Notification.isStatusUpdate = [.bugStatusUpdate updated reporter]
            ∧ (Notification.bugStatusUpdate updated reporter).mail.recipient = reporter.email
            ∧ reporter.id = current.reporter_id
            ∧ updated.status = s)
      ∧ (∀ s : String, body.get "status" = .str s → s = current.status →
            ns.filter Notification.isStatusUpdate = [])
      ∧ (body.get "status" = .undefined → ns.filter Notification.isStatusUpdate = []) := by
  have hup : updateBug.updates body ≠ [] := updates_ne_nil body hrec
  refine ⟨_, _, (updateBug_reload env id body user_id w current rest hcur hup).2,
    updateBug_sent env id body user_id w current rest hcur hup, ?_, ?_, ?_⟩
  · intro s hs hvalid hne
    have hs0 : s ≠ "" := by
      intro h
      subst h
      simp [statusValues] at hvalid
    refine ⟨?_, rfl, selectUser_id w _ reporter others hrep, ?_⟩
    · rw [List.filter_append, filter_isStatusUpdate_assignmentSent, List.nil_append]
      simp [updateBug.statusSent, hs, Bug.get, JSValue.truthy, JSValue.strictNe,
        JSValue.strictEq, hs0, hne, hrep, Notification.isStatusUpdate]
    · rw [updated_eq]
      simp [hs, JSValue.strictNe, JSValue.strictEq, sqlText, JSValue.toJSString]
  · intro s hs hsame
    rw [List.filter_append, filter_isStatusUpdate_assignmentSent, List.nil_append]
    simp [updateBug.statusSent, hs, Bug.get, JSValue.strictNe, JSValue.strictEq, hsame]
  · intro hs
    rw [List.filter_append, filter_isStatusUpdate_assignmentSent, List.nil_append]
    simp [updateBug.statusSent, hs, JSValue.truthy]

/-- Witness of C6: a patch that moves the bug to `in_progress` and assigns it to developer 2. -/
theorem updateBug_status_notification_witness :
    ∃ (updated : Bug) (ns : List Notification),
      response (updateBug Example.env 1
          [("status", .str "in_progress"), ("assigned_to", .num 2)] 2 Example.world)
        = .ok 200 updated
      ∧ (world (updateBug Example.env 1
          [("status", .str "in_progress"), ("assigned_to", .num 2)] 2 Example.world)).sent
        = Example.world.sent ++ ns
      ∧ (∀ s : String,
          Body.get [("status", .str "in_progress"), ("assigned_to", .num 2)] "status" = .str s →
          s ∈ statusValues → s ≠ Example.bug.status →
            ns.filter Notification.isStatusUpdate = [.bugStatusUpdate updated Example.bob]
            ∧ (Notification.bugStatusUpdate updated Example.bob).mail.recipient = Example.bob.email
            ∧ Example.bob.id = Example.bug.reporter_id
            ∧ updated.status = s)
      ∧ (∀ s : String,
          Body.get [("status", .str "in_progress"), ("assigned_to", .num 2)] "status" = .str s →
          s = Example.bug.status → ns.filter Notification.isStatusUpdate = [])
      ∧ (Body.get [("status", .str "in_progress"), ("assigned_to", .num 2)] "status" = .undefined →
          ns.filter Notification.isStatusUpdate = []) :=
  updateBug_status_notification Example.env 1
    [("status", .str "in_progress"), ("assigned_to", .num 2)] 2 Example.world Example.bug []
    Example.bob [] (by decide) ⟨"status", by decide, by decide⟩ (by decide)

/-- C7, counterexample: the patch `assigned_to: 0` on a bug assigned to user 2 returns a bug whose
assignee is null, not the patch value 0. -/
theorem updateBug_assignee_zero_stored_null :
    response (updateBug Example.env 1 [("assigned_to", .num 0)] 2 Example.assignedWorld)
        = .ok 200 { Example.assignedBug with assigned_to := none }
      ∧ Bug.get { Example.assignedBug with assigned_to := none } "assigned_to" = .null
      ∧ Body.get [("assigned_to", .num 0)] "assigned_to" = .num 0 := by
  decide

/-- C7, amended: for an existing bug and a patch with a recognised field, the bug `updateBug`
returns is the reloaded row, in which each of title, description, priority, severity and status
is the patch's string when the patch has the field and the pre-update value when it has not; the
assignee is the patch's id when that is a non-zero integer, null when the patch value is null
or 0, and the pre-update assignee when the patch has no assignee; id, reporter and created
timestamp are those of the pre-update row, and the rows of other bugs are untouched. -/
theorem updateBug_sparse_merge (env : Env) (id : Int) (body : Body) (user_id : Int)
    (w : World) (current : Bug) (rest : List Bug)
    (hcur : selectBug w id = current :: rest)
    (hrec : ∃ f ∈ updateBug.fields, body.get f ≠ .undefined) :
    ∃ (updated : Bug) (rest' : List Bug),
      selectBug (world (updateBug env id body user_id w)) id = updated :: rest'
      ∧ response (updateBug env id body user_id w) = .ok 200 updated
      ∧ ((∀ s, body.get "title" = .str s → updated.title = s)
          ∧ (body.get "title" = .undefined → updated.title = current.title))
      ∧ ((∀ s, body.get "description" = .str s → updated.description = s)
          ∧ (body.get "description" = .undefined → updated.description = current.description))
      ∧ ((∀ s, body.get "priority" = .str s → updated.priority = s)
          ∧ (body.get "priority" = .undefined → updated.priority = current.priority))
      ∧ ((∀ s, body.get "severity" = .str s → updated.severity = s)
          ∧ (body.get "severity" = .undefined → updated.severity = current.severity))
      ∧ ((∀ s, body.get "status" = .str s → updated.status = s)
          ∧ (body.get "status" = .undefined → updated.status = current.status))
      ∧ ((∀ a, body.get "assigned_to" = .num a → a ≠ 0 → updated.assigned_to = some a)
          ∧ (body.get "assigned_to" = .num 0 → updated.assigned_to = none)
          ∧ (body.get "assigned_to" = .null → updated.assigned_to = none)
          ∧ (body.get "assigned_to" = .undefined → updated.assigned_to = current.assigned_to))
      ∧ updated.id = current.id
      ∧ updated.reporter_id = current.reporter_id
      ∧ updated.created_at = current.created_at
      ∧ (world (updateBug env id body user_id w)).bugs.filter (fun b => b.id ≠ id)
          = w.bugs.filter (fun b => b.id ≠ id) := by
  have hup := updates_ne_nil body hrec
  obtain ⟨hsel, hres⟩ := updateBug_reload env id body user_id w current rest hcur hup
  have hstr : ∀ (v : JSValue) (s : String), v = .str s →
      v.strictNe .undefined = true ∧ sqlText env v = s := by
    intro v s h
    subst h
    simp [JSValue.strictNe, JSValue.strictEq, sqlText, JSValue.toJSString]
  have hund : ∀ (v : JSValue), v = .undefined → v.strictNe .undefined = false := by
    intro v h
    subst h
    simp [JSValue.strictNe, JSValue.strictEq]
  refine ⟨_, _, hsel, hres, ⟨?_, ?_⟩, ⟨?_, ?_⟩, ⟨?_, ?_⟩, ⟨?_, ?_⟩, ⟨?_, ?_⟩,
    ⟨?_, ?_, ?_, ?_⟩, ?_, ?_, ?_, ?_⟩
  · intro s h
    rw [updated_eq]
    simp [hstr _ s h]
  · intro h
    rw [updated_eq]
    simp [hund _ h]
  · intro s h
    rw [updated_eq]
    simp [hstr _ s h]
  · intro h
    rw [updated_eq]
    simp [hund _ h]
  · intro s h
    rw [updated_eq]
    simp [hstr _ s h]
  · intro h
    rw [updated_eq]
    simp [hund _ h]
  · intro s h
    rw [updated_eq]
    simp [hstr _ s h]
  · intro h
    rw [updated_eq]
    simp [hund _ h]
  · intro s h
    rw [updated_eq]
    simp [hstr _ s h]
  · intro h
    rw [updated_eq]
    simp [hund _ h]
  · intro a h ha
    rw [updated_eq]
    simp [h, JSValue.strictNe, JSValue.strictEq, JSValue.or, JSValue.truthy, ha, sqlInt]
  · intro h
    rw [updated_eq]
    simp [h, JSValue.strictNe, JSValue.strictEq, JSValue.or, JSValue.truthy, sqlInt]
  · intro h
    rw [updated_eq]
    simp [h, JSValue.strictNe, JSValue.strictEq, JSValue.or, JSValue.truthy, sqlInt]
  · intro h
    rw [updated_eq]
    simp [hund _ h]
  · rw [updated_eq]
  · rw [updated_eq]
  · rw [updated_eq]
  · rw [updateBug_bugs env id body user_id w current rest hcur hup]
    exact updateBugs_others env _ id w

/-- Witness of the amended C7: the test's patch, `status: in_progress`. -/
theorem updateBug_sparse_merge_witness :
    ∃ (updated : Bug) (rest' : List Bug),
      selectBug (world (updateBug Example.env 1 Example.statusPatch 2 Example.world)) 1
        = updated :: rest'
      ∧ response (updateBug Example.env 1 Example.statusPatch 2 Example.world) = .ok 200 updated
      ∧ ((∀ s, Example.statusPatch.get "title" = .str s → updated.title = s)
          ∧ (Example.statusPatch.get "title" = .undefined → updated.title = Example.bug.title))
      ∧ ((∀ s, Example.statusPatch.get "description" = .str s → updated.description = s)
          ∧ (Example.statusPatch.get "description" = .undefined
              → updated.description = Example.bug.description))
      ∧ ((∀ s, Example.statusPatch.get "priority" = .str s → updated.priority = s)
          ∧ (Example.statusPatch.get "priority" = .undefined
              → updated.priority = Example.bug.priority))
      ∧ ((∀ s, Example.statusPatch.get "severity" = .str s → updated.severity = s)
          ∧ (Example.statusPatch.get "severity" = .undefined
              → updated.severity = Example.bug.severity))
      ∧ ((∀ s, Example.statusPatch.get "status" = .str s → updated.status = s)
          ∧ (Example.statusPatch.get "status" = .undefined → updated.status = Example.bug.status))
      ∧ ((∀ a, Example.statusPatch.get "assigned_to" = .num a → a ≠ 0
              → updated.assigned_to = some a)
          ∧ (Example.statusPatch.get "assigned_to" = .num 0 → updated.assigned_to = none)
          ∧ (Example.statusPatch.get "assigned_to" = .null → updated.assigned_to = none)
          ∧ (Example.statusPatch.get "assigned_to" = .undefined
              → updated.assigned_to = Example.bug.assigned_to))
      ∧ updated.id = Example.bug.id
      ∧ updated.reporter_id = Example.bug.reporter_id
      ∧ updated.created_at = Example.bug.created_at
      ∧ (world (updateBug Example.env 1 Example.statusPatch 2 Example.world)).bugs.filter
            (fun b => b.id ≠ 1)
          = Example.world.bugs.filter (fun b => b.id ≠ 1) :=
  updateBug_sparse_merge Example.env 1 Example.statusPatch 2 Example.world Example.bug []
    (by decide) ⟨"status", by decide, by decide⟩

/-- C8: the bugs in the rows of `getSLAViolations` are exactly the bugs of the store whose status
is `open` or `in_progress` and whose priority is `critical` with an age above 24, or `high` with
an age above 48, the age being `now` minus the created timestamp in whole hours (truncated);
when user ids are unique each such bug has one row. No row has another priority or status. An
open critical bug aged 25 hours is in, one aged 23 hours is out; an open high bug aged 49 hours
is in, one aged 47 hours is out. -/
theorem getSLAViolations_exact (env : Env) (w : World) :
    getSLAViolations env w = .ok 200 (getSLAViolations.results env w)
      ∧ (∀ b : Bug, b ∈ (getSLAViolations.results env w).map (fun r => r.bug) ↔
          b ∈ w.bugs ∧ (b.status = "open" ∨ b.status = "in_progress")
            ∧ ((b.priority = "critical" ∧ (env.now - b.created_at).tdiv 3600 > 24)
              ∨ (b.priority = "high" ∧ (env.now - b.created_at).tdiv 3600 > 48)))
      ∧ ((w.users.map fun u => u.id).Nodup →
          List.Perm ((getSLAViolations.results env w).map fun r => r.bug)
            (w.bugs.filter fun b =>
              decide ((b.status = "open" ∨ b.status = "in_progress")
                ∧ ((b.priority = "critical" ∧ (env.now - b.created_at).tdiv 3600 > 24)
                  ∨ (b.priority = "high" ∧ (env.now - b.created_at).tdiv 3600 > 48)))))
      ∧ (∀ r ∈ getSLAViolations.results env w,
          (r.bug.priority = "critical" ∨ r.bug.priority = "high")
            ∧ r.bug.priority ≠ "medium" ∧ r.bug.priority ≠ "low"
            ∧ (r.bug.status = "open" ∨ r.bug.status = "in_progress"))
      ∧ (∀ b ∈ w.bugs, b.status = "open" → b.priority = "critical" →
          (env.now - b.created_at = 25 * 3600 →
            b ∈ (getSLAViolations.results env w).map fun r => r.bug)
          ∧ (env.now - b.created_at = 23 * 3600 →
            b ∉ (getSLAViolations.results env w).map fun r => r.bug))
      ∧ (∀ b ∈ w.bugs, b.status = "open" → b.priority = "high" →
          (env.now - b.created_at = 49 * 3600 →
            b ∈ (getSLAViolations.results env w).map fun r => r.bug)
          ∧ (env.now - b.created_at = 47 * 3600 →
            b ∉ (getSLAViolations.results env w).map fun r => r.bug)) := by
  have hmem : ∀ b : Bug, b ∈ (getSLAViolations.results env w).map (fun r => r.bug) ↔
      b ∈ w.bugs ∧ (b.status = "open" ∨ b.status = "in_progress")
        ∧ ((b.priority = "critical" ∧ (env.now - b.created_at).tdiv 3600 > 24)
          ∨ (b.priority = "high" ∧ (env.now - b.created_at).tdiv 3600 > 48)) := by
    intro b
    rw [mem_results_bug, condition_iff]
  refine ⟨rfl, hmem, ?_, ?_, ?_, ?_⟩
  · intro hnodup
    have hperm : List.Perm ((getSLAViolations.results env w).map fun r => r.bug)
        (((getSLAViolations.joined env w).filter fun r =>
          getSLAViolations.condition env r.bug).map fun r => r.bug) :=
      (List.perm_insertionSort _ _).map _
    refine hperm.trans (List.Perm.of_eq ?_)
    have hfm := List.filter_map (f := fun r : SLARow => r.bug)
      (l := getSLAViolations.joined env w) (p := getSLAViolations.condition env)
    rw [joined_bug_of_nodup env w hnodup] at hfm
    have hc : (getSLAViolations.condition env) = fun b : Bug =>
        decide ((b.status = "open" ∨ b.status = "in_progress")
          ∧ ((b.priority = "critical" ∧ (env.now - b.created_at).tdiv 3600 > 24)
            ∨ (b.priority = "high" ∧ (env.now - b.created_at).tdiv 3600 > 48))) := by
      funext b
      rw [Bool.eq_iff_iff, condition_iff]
      simp
    rw [← hc, hfm]
    rfl
  · intro r hr
    have hb : r.bug ∈ (getSLAViolations.results env w).map (fun r => r.bug) :=
      List.mem_map.mpr ⟨r, hr, rfl⟩
    obtain ⟨_, hst, hpr⟩ := (hmem r.bug).mp hb
    refine ⟨?_, ?_, ?_, hst⟩
    · rcases hpr with h | h
      · exact Or.inl h.1
      · exact Or.inr h.1
    · rcases hpr with h | h <;> rw [h.1] <;> decide
    · rcases hpr with h | h <;> rw [h.1] <;> decide
  · intro b hb hst hpr
    constructor
    · intro hage
      rw [hmem]
      exact ⟨hb, Or.inl hst, Or.inl ⟨hpr, by rw [hage]; decide⟩⟩
    · intro hage hin
      obtain ⟨_, _, h⟩ := (hmem b).mp hin
      rw [hage, hpr] at h
      revert h
      decide
  · intro b hb hst hpr
    constructor
    · intro hage
      rw [hmem]
      exact ⟨hb, Or.inl hst, Or.inr ⟨hpr, by rw [hage]; decide⟩⟩
    · intro hage hin
      obtain ⟨_, _, h⟩ := (hmem b).mp hin
      rw [hage, hpr] at h
      revert h
      decide

/-- Witness of C8: at hour 25 the open critical bug of the fixtures, created at 0, is reported. -/
theorem getSLAViolations_exact_witness :
    Example.bug ∈ (getSLAViolations.results Example.slaEnv Example.world).map (fun r => r.bug) :=
  ((getSLAViolations_exact Example.slaEnv Example.world).2.2.2.2.1 Example.bug (by decide)
    (by decide) (by decide)).1 (by decide)

/-- C9: when every bug has one of the four priorities, the rows of `getBugsByPriority` are one
row per priority present among the bugs, in the fixed order critical, high, medium, low
whatever the insertion order and the counts; the count of a row is the number of bugs with its
priority, and its open, in_progress and resolved counts are the numbers of those bugs in that
status. -/
theorem getBugsByPriority_rows (w : World)
    (hvalid : ∀ b ∈ w.bugs, b.priority ∈ priorityValues) :
    getBugsByPriority w = .ok 200 (getBugsByPriority.results w)
      ∧ (getBugsByPriority.results w).map (fun r => r.priority)
          = ["critical", "high", "medium", "low"].filter
              (fun p => decide (p ∈ w.bugs.map fun b => b.priority))
      ∧ (∀ r ∈ getBugsByPriority.results w,
          r.count = (w.bugs.filter fun b => b.priority = r.priority).length
          ∧ r.open_count = (w.bugs.filter fun b =>
              decide (b.priority = r.priority ∧ b.status = "open")).length
          ∧ r.in_progress_count = (w.bugs.filter fun b =>
              decide (b.priority = r.priority ∧ b.status = "in_progress")).length
          ∧ r.resolved_count = (w.bugs.filter fun b =>
              decide (b.priority = r.priority ∧ b.status = "resolved")).length) := by
  refine ⟨rfl, ?_, ?_⟩
  · rw [map_priority_results, insertionSort_priorities _ (List.nodup_dedup _)]
    · apply List.filter_congr
      intro p _
      simp only [List.mem_dedup]
    · intro a ha
      obtain ⟨b, hb, rfl⟩ := List.mem_map.mp (List.mem_dedup.mp ha)
      exact hvalid b hb
  · intro r hr
    have hr' : r ∈ ((w.bugs.map fun b => b.priority).dedup).map (getBugsByPriority.group w) :=
      (List.mem_insertionSort PriorityRow.before).mp hr
    obtain ⟨p, _, rfl⟩ := List.mem_map.mp hr'
    have hff : ∀ s : String,
        ((w.bugs.filter fun b => b.priority = p).filter fun b => b.status = s).length
          = (w.bugs.filter fun b => decide (b.priority = p ∧ b.status = s)).length := by
      intro s
      rw [List.filter_filter]
      congr 1
      apply List.filter_congr
      intro b _
      simp only [Bool.decide_and]
      exact Bool.and_comm _ _
    exact ⟨rfl, hff "open", hff "in_progress", hff "resolved"⟩

/-- Witness of C9: bugs inserted as low, critical, high, critical are reported as critical, high,
low. -/
theorem getBugsByPriority_rows_witness :
    getBugsByPriority Example.reportWorld = .ok 200 (getBugsByPriority.results Example.reportWorld)
      ∧ (getBugsByPriority.results Example.reportWorld).map (fun r => r.priority)
          = ["critical", "high", "medium", "low"].filter
              (fun p => decide (p ∈ Example.reportWorld.bugs.map fun b => b.priority))
      ∧ (∀ r ∈ getBugsByPriority.results Example.reportWorld,
          r.count = (Example.reportWorld.bugs.filter fun b => b.priority = r.priority).length
          ∧ r.open_count = (Example.reportWorld.bugs.filter fun b =>
              decide (b.priority = r.priority ∧ b.status = "open")).length
          ∧ r.in_progress_count = (Example.reportWorld.bugs.filter fun b =>
              decide (b.priority = r.priority ∧ b.status = "in_progress")).length
          ∧ r.resolved_count = (Example.reportWorld.bugs.filter fun b =>
              decide (b.priority = r.priority ∧ b.status = "resolved")).length) :=
  getBugsByPriority_rows Example.reportWorld (by decide)

/-- C10, counterexample: developer 2 is assigned the bug and resolves it at hour 2, and the bug is
then reopened. The report row of the developer has `resolved_count = 0` and an average
resolution time of 2 hours, not null. -/
theorem getDeveloperPerformance_avg_without_resolved :
    (getDeveloperPerformance.results Example.reopenedWorld).map
        (fun r => (r.id, r.resolved_count, r.avg_resolution_time_hours))
      = [(2, 0, some 2)] := by
  have h : getDeveloperPerformance.results Example.reopenedWorld = [Example.johnRow] := by
    rfl
  rw [h]
  simp [Example.johnRow, sqlAvg]

/-- C10, amended: with distinct user ids, every row of `getDeveloperPerformance` has a null
`avg_resolution_time_hours` when no bug assigned to the developer has a resolved timestamp, and
otherwise the mean, over the developer's bugs that have a resolved timestamp, of the whole
hours from created to resolved. -/
theorem getDeveloperPerformance_avg (w : World) (hkey : (w.users.map fun u => u.id).Nodup) :
    ∀ r ∈ getDeveloperPerformance.results w,
      (resolutionTimes w r.id = [] → r.avg_resolution_time_hours = none)
      ∧ (resolutionTimes w r.id ≠ [] →
          r.avg_resolution_time_hours
            = some (((resolutionTimes w r.id).sum : ℚ) / ((resolutionTimes w r.id).length : ℚ)))
      ∧ resolutionTimes w r.id
          = (w.bugs.filter fun b => b.assigned_to = some r.id).filterMap fun b =>
              b.resolved_at.map fun t => (t - b.created_at).tdiv 3600 := by
  intro r hr
  obtain ⟨u, hu, hrole, rfl⟩ := mem_developer_results w r hr
  have havg : (getDeveloperPerformance.group w (u.id, u.name)).avg_resolution_time_hours
      = sqlAvg (resolutionTimes w u.id) := by
    simp only [getDeveloperPerformance.group, resolutionTimes]
    rw [group_bugs w hkey u hu hrole]
  have hid : (getDeveloperPerformance.group w (u.id, u.name)).id = u.id := rfl
  rw [havg, hid]
  refine ⟨?_, ?_, rfl⟩
  · intro h
    simp [sqlAvg, h]
  · intro h
    simp [sqlAvg, h]

/-- Witness of the amended C10: the row of developer 2 in the reopened world carries the mean of
the one resolution time. -/
theorem getDeveloperPerformance_avg_witness :
    (resolutionTimes Example.reopenedWorld Example.johnRow.id = []
        → Example.johnRow.avg_resolution_time_hours = none)
      ∧ (resolutionTimes Example.reopenedWorld Example.johnRow.id ≠ [] →
          Example.johnRow.avg_resolution_time_hours
            = some (((resolutionTimes Example.reopenedWorld Example.johnRow.id).sum : ℚ)
                / ((resolutionTimes Example.reopenedWorld Example.johnRow.id).length : ℚ)))
      ∧ resolutionTimes Example.reopenedWorld Example.johnRow.id
          = (Example.reopenedWorld.bugs.filter fun b =>
              b.assigned_to = some Example.johnRow.id).filterMap
              fun b => b.resolved_at.map fun t => (t - b.created_at).tdiv 3600 :=
  getDeveloperPerformance_avg Example.reopenedWorld (by decide) Example.johnRow
    (by
      rw [show getDeveloperPerformance.results Example.reopenedWorld = [Example.johnRow] from rfl]
      exact List.mem_singleton_self _)

/-- C11: with distinct user ids, the rows of `getDeveloperPerformance` are, up to their order,
one row for each user whose role is `developer` and no other row; the counts of a row are those
of the bugs assigned to its developer, so a developer with no assigned bug has a row with
`total_assigned`, `resolved_count`, `in_progress_count` and `open_count` all 0; and the rows are
ordered by `resolved_count` descending. -/
theorem getDeveloperPerformance_rows (w : World) (hkey : (w.users.map fun u => u.id).Nodup) :
    getDeveloperPerformance w = .ok 200 (getDeveloperPerformance.results w)
      ∧ List.Perm ((getDeveloperPerformance.results w).map fun r => (r.id, r.name))
          ((w.users.filter fun u => u.role = "developer").map fun u => (u.id, u.name))
      ∧ (∀ r ∈ getDeveloperPerformance.results w,
          r.total_assigned = (w.bugs.filter fun b => b.assigned_to = some r.id).length
          ∧ r.resolved_count = (w.bugs.filter fun b =>
              decide (b.assigned_to = some r.id ∧ b.status = "resolved")).length
          ∧ r.in_progress_count = (w.bugs.filter fun b =>
              decide (b.assigned_to = some r.id ∧ b.status = "in_progress")).length
          ∧ r.open_count = (w.bugs.filter fun b =>
              decide (b.assigned_to = some r.id ∧ b.status = "open")).length)
      ∧ (∀ r ∈ getDeveloperPerformance.results w,
          (∀ b ∈ w.bugs, b.assigned_to ≠ some r.id) →
            r.total_assigned = 0 ∧ r.resolved_count = 0 ∧ r.in_progress_count = 0
              ∧ r.open_count = 0)
      ∧ List.Pairwise (fun a b : DeveloperRow => b.resolved_count ≤ a.resolved_count)
          (getDeveloperPerformance.results w)
      ∧ List.Chain' (fun a b : DeveloperRow => b.resolved_count ≤ a.resolved_count)
          (getDeveloperPerformance.results w) := by
  have hsorted : List.Sorted DeveloperRow.before (getDeveloperPerformance.results w) :=
    List.sorted_insertionSort DeveloperRow.before _
  have hcounts : ∀ r ∈ getDeveloperPerformance.results w,
      r.total_assigned = (w.bugs.filter fun b => b.assigned_to = some r.id).length
      ∧ ∀ s : String, ((w.bugs.filter fun b => b.assigned_to = some r.id).filter
          fun b => b.status = s).length = (w.bugs.filter fun b =>
            decide (b.assigned_to = some r.id ∧ b.status = s)).length := by
    intro r _
    refine ⟨?_, ?_⟩
    · obtain ⟨u, hu, hrole, rfl⟩ := mem_developer_results w r (by assumption)
      simp only [getDeveloperPerformance.group]
      rw [group_bugs w hkey u hu hrole]
    · intro s
      rw [List.filter_filter]
      congr 1
      apply List.filter_congr
      intro b _
      simp only [Bool.decide_and]
      exact Bool.and_comm _ _
  have hrows : ∀ r ∈ getDeveloperPerformance.results w,
      r.total_assigned = (w.bugs.filter fun b => b.assigned_to = some r.id).length
      ∧ r.resolved_count = (w.bugs.filter fun b =>
          decide (b.assigned_to = some r.id ∧ b.status = "resolved")).length
      ∧ r.in_progress_count = (w.bugs.filter fun b =>
          decide (b.assigned_to = some r.id ∧ b.status = "in_progress")).length
      ∧ r.open_count = (w.bugs.filter fun b =>
          decide (b.assigned_to = some r.id ∧ b.status = "open")).length := by
    intro r hr
    obtain ⟨h1, h2⟩ := hcounts r hr
    obtain ⟨u, hu, hrole, rfl⟩ := mem_developer_results w r hr
    refine ⟨h1, ?_, ?_, ?_⟩
    · rw [← h2 "resolved"]
      simp only [getDeveloperPerformance.group]
      rw [group_bugs w hkey u hu hrole]
    · rw [← h2 "in_progress"]
      simp only [getDeveloperPerformance.group]
      rw [group_bugs w hkey u hu hrole]
    · rw [← h2 "open"]
      simp only [getDeveloperPerformance.group]
      rw [group_bugs w hkey u hu hrole]
  refine ⟨rfl, developer_keys_perm w hkey, hrows, ?_, hsorted, List.Pairwise.chain' hsorted⟩
  intro r hr hnone
  obtain ⟨h1, h2, h3, h4⟩ := hrows r hr
  have hz : ∀ p : Bug → Bool, (∀ b ∈ w.bugs, p b = true → b.assigned_to = some r.id) →
      (w.bugs.filter p).length = 0 := by
    intro p hp
    rw [List.length_eq_zero, List.filter_eq_nil_iff]
    intro b hb hpb
    exact hnone b hb (hp b hb hpb)
  refine ⟨?_, ?_, ?_, ?_⟩
  · rw [h1]
    exact hz _ fun b _ h => by simpa using h
  · rw [h2]
    exact hz _ fun b _ h => (by simpa using h : _ ∧ _).1
  · rw [h3]
    exact hz _ fun b _ h => (by simpa using h : _ ∧ _).1
  · rw [h4]
    exact hz _ fun b _ h => (by simpa using h : _ ∧ _).1

/-- Witness of C11: a reporter, a developer with a reopened bug and a developer with no bug. -/
theorem getDeveloperPerformance_rows_witness :
    (getDeveloperPerformance.results Example.teamWorld).map
        (fun r => (r.id, r.total_assigned, r.resolved_count, r.in_progress_count, r.open_count))
      = [(2, 1, 0, 0, 0), (3, 0, 0, 0, 0)]
      ∧ List.Perm ((getDeveloperPerformance.results Example.teamWorld).map fun r => (r.id, r.name))
          ((Example.teamWorld.users.filter fun u => u.role = "developer").map
            fun u => (u.id, u.name)) :=
  ⟨by rfl, (getDeveloperPerformance_rows Example.teamWorld (by decide)).2.1⟩

/-- C12: for a creation payload whose title and description are strings, whatever else it
carries (a status is ignored), `createBug` answers 201 with the new bug: its status is `open`
and its resolved timestamp unset, title and description are the payload's, priority is the
payload's when supplied and `medium` when absent, severity is the payload's when supplied and
`major` when absent, and the reporter is the acting user. The key the store assigns is fresh. -/
theorem createBug_returns (env : Env) (insertId : Int) (body : Body) (reporter_id : Int)
    (w : World) (t d : String)
    (hfresh : ∀ b ∈ w.bugs, b.id ≠ insertId)
    (ht : body.get "title" = .str t) (hd : body.get "description" = .str d) :
    ∃ bug : Bug,
      response (createBug env insertId body reporter_id w) = .ok 201 (some bug)
      ∧ (world (createBug env insertId body reporter_id w)).bugs = w.bugs ++ [bug]
      ∧ bug.status = "open" ∧ bug.resolved_at = none
      ∧ bug.title = t ∧ bug.description = d
      ∧ (∀ p, body.get "priority" = .str p → p ∈ priorityValues → bug.priority = p)
      ∧ (body.get "priority" = .undefined → bug.priority = "medium")
      ∧ (∀ s, body.get "severity" = .str s → s ∈ severityValues → bug.severity = s)
      ∧ (body.get "severity" = .undefined → bug.severity = "major")
      ∧ bug.reporter_id = reporter_id
      ∧ bug.id = insertId ∧ bug.assigned_to = none := by
  have hsel : (w.bugs.filter fun b => decide (b.id = insertId)) = [] := by
    rw [List.filter_eq_nil_iff]
    intro b hb h
    exact hfresh b hb (by simpa using h)
  refine ⟨_, ?_, rfl, rfl, rfl, ?_, ?_, ?_, ?_, ?_, ?_, rfl, rfl, rfl⟩
  · simp [createBug, insertBug, selectBug, List.filter_append, hsel, Bug.inserted]
  · simp [ht, sqlText, JSValue.toJSString]
  · simp [hd, sqlText, JSValue.toJSString]
  · intro p hp hv
    have hp0 : p ≠ "" := by
      intro h
      subst h
      simp [priorityValues] at hv
    simp [hp, sqlText, JSValue.toJSString, JSValue.or, JSValue.truthy, hp0]
  · intro hp
    simp [hp, sqlText, JSValue.toJSString, JSValue.or, JSValue.truthy]
  · intro s hs hv
    have hs0 : s ≠ "" := by
      intro h
      subst h
      simp [severityValues] at hv
    simp [hs, sqlText, JSValue.toJSString, JSValue.or, JSValue.truthy, hs0]
  · intro hs
    simp [hs, sqlText, JSValue.toJSString, JSValue.or, JSValue.truthy]

/-- Witness of C12: a payload that carries `status: resolved` and no severity. -/
theorem createBug_returns_witness :
    ∃ bug : Bug,
      response (createBug Example.env 2 Example.createPayload 4 Example.world) = .ok 201 (some bug)
      ∧ (world (createBug Example.env 2 Example.createPayload 4 Example.world)).bugs
          = Example.world.bugs ++ [bug]
      ∧ bug.status = "open" ∧ bug.resolved_at = none
      ∧ bug.title = "Test Bug" ∧ bug.description = "This is a test bug description"
      ∧ (∀ p, Example.createPayload.get "priority" = .str p → p ∈ priorityValues
          → bug.priority = p)
      ∧ (Example.createPayload.get "priority" = .undefined → bug.priority = "medium")
      ∧ (∀ s, Example.createPayload.get "severity" = .str s → s ∈ severityValues
          → bug.severity = s)
      ∧ (Example.createPayload.get "severity" = .undefined → bug.severity = "major")
      ∧ bug.reporter_id = 4
      ∧ bug.id = 2 ∧ bug.assigned_to = none :=
  createBug_returns Example.env 2 Example.createPayload 4 Example.world "Test Bug"
    "This is a test bug description" (by decide) (by decide) (by decide)

/-- C13: the transport has no part in the outcome of `updateBug`. With any other `sendMail`,
one that throws included, the response is the same (200 with the same reloaded bug whenever
the bug exists and the patch has a recognised field), and so are the bugs, the users, the
history rows and the notifications handed to the mail module. `sendEmail` itself turns a throw
of the transport into a result with `success = false` and touches nothing but the console. -/
theorem updateBug_transport_independent (env : Env) (sendMail' : Mail → Except String String)
    (id : Int) (body : Body) (user_id : Int) (w : World) :
    response (updateBug { env with sendMail := sendMail' } id body user_id w)
        = response (updateBug env id body user_id w)
      ∧ (world (updateBug { env with sendMail := sendMail' } id body user_id w)).bugs
        = (world (updateBug env id body user_id w)).bugs
      ∧ (world (updateBug { env with sendMail := sendMail' } id body user_id w)).users
        = (world (updateBug env id body user_id w)).users
      ∧ (world (updateBug { env with sendMail := sendMail' } id body user_id w)).bug_history
        = (world (updateBug env id body user_id w)).bug_history
      ∧ (world (updateBug { env with sendMail := sendMail' } id body user_id w)).sent
        = (world (updateBug env id body user_id w)).sent
      ∧ (∀ current rest, selectBug w id = current :: rest →
          (∃ f ∈ updateBug.fields, body.get f ≠ .undefined) →
          response (updateBug { env with sendMail := sendMail' } id body user_id w)
            = .ok 200 (updateBug.updated env body current))
      ∧ (∀ (m : Mail) (w0 : World) (message : String), env.sendMail m = .error message →
          (sendEmail env m w0).2 = { success := false, messageId := none, error := some message }
          ∧ (sendEmail env m w0).1.bugs = w0.bugs
          ∧ (sendEmail env m w0).1.bug_history = w0.bug_history
          ∧ (sendEmail env m w0).1.sent = w0.sent)
      ∧ (∀ (m : Mail) (w0 : World) (messageId : String), env.sendMail m = .ok messageId →
          (sendEmail env m w0).2
            = { success := true, messageId := some messageId, error := none }) := by
  have hsame : ∀ current : Bug, updateBug.updated { env with sendMail := sendMail' } body current
      = updateBug.updated env body current := fun _ => rfl
  have hmain : response (updateBug { env with sendMail := sendMail' } id body user_id w)
        = response (updateBug env id body user_id w)
      ∧ (world (updateBug { env with sendMail := sendMail' } id body user_id w)).bugs
        = (world (updateBug env id body user_id w)).bugs
      ∧ (world (updateBug { env with sendMail := sendMail' } id body user_id w)).users
        = (world (updateBug env id body user_id w)).users
      ∧ (world (updateBug { env with sendMail := sendMail' } id body user_id w)).bug_history
        = (world (updateBug env id body user_id w)).bug_history
      ∧ (world (updateBug { env with sendMail := sendMail' } id body user_id w)).sent
        = (world (updateBug env id body user_id w)).sent := by
    cases hcur : selectBug w id with
    | nil => simp [updateBug, hcur]
    | cons current rest =>
      by_cases hup : updateBug.updates body = []
      · simp [updateBug, hcur, hup]
      · have h1 := updateBug_ok { env with sendMail := sendMail' } id body user_id w current rest
          hcur hup
        have h2 := updateBug_ok env id body user_id w current rest hcur hup
        have s1 := updateBug_sent { env with sendMail := sendMail' } id body user_id w current
          rest hcur hup
        have s2 := updateBug_sent env id body user_id w current rest hcur hup
        have b1 := updateBug_bugs { env with sendMail := sendMail' } id body user_id w current
          rest hcur hup
        have b2 := updateBug_bugs env id body user_id w current rest hcur hup
        have t1 := updateBug_history { env with sendMail := sendMail' } id body user_id w
          current rest hcur hup
        have t2 := updateBug_history env id body user_id w current rest hcur hup
        refine ⟨?_, ?_, ?_, ?_, ?_⟩
        · simp only [response, h1, h2]
          rfl
        · simp only [world, b1, b2]
          rfl
        · simp only [world, h1, h2, (notifyStatus_world _ _ _ _ _).2.1,
            (notifyAssignment_world _ _ _ _ _).2.1, updateBug.logged, foldl_logField, updateBugs]
        · simp only [world, t1, t2]
          rfl
        · simp only [world, s1, s2]
          rfl
  refine ⟨hmain.1, hmain.2.1, hmain.2.2.1, hmain.2.2.2.1, hmain.2.2.2.2, ?_, ?_, ?_⟩
  · intro current rest hcur hrec
    rw [hmain.1]
    exact (updateBug_reload env id body user_id w current rest hcur (updates_ne_nil body hrec)).2
  · intro m w0 message hm
    simp [sendEmail, hm]
  · intro m w0 messageId hm
    simp [sendEmail, hm]

/-- Witness of C13: with a transport that throws, the update that assigns and resolves the bug
still answers 200 with the updated bug and logs its two history rows. -/
theorem updateBug_transport_independent_witness :
    response (updateBug Example.failingEnv 1
        [("status", .str "resolved"), ("assigned_to", .num 2)] 2 Example.world)
      = response (updateBug Example.env 1
        [("status", .str "resolved"), ("assigned_to", .num 2)] 2 Example.world)
      ∧ (world (updateBug Example.failingEnv 1
        [("status", .str "resolved"), ("assigned_to", .num 2)] 2 Example.world)).bug_history
      = (world (updateBug Example.env 1
        [("status", .str "resolved"), ("assigned_to", .num 2)] 2 Example.world)).bug_history :=
  ⟨(updateBug_transport_independent Example.env (fun _ => .error "connect ECONNREFUSED") 1
      [("status", .str "resolved"), ("assigned_to", .num 2)] 2 Example.world).1,
   (updateBug_transport_independent Example.env (fun _ => .error "connect ECONNREFUSED") 1
      [("status", .str "resolved"), ("assigned_to", .num 2)] 2 Example.world).2.2.2.1⟩

/-- C14: for an id that no bug of the store has, `updateBug` answers 404 `Bug not found`
whatever the patch, and leaves the world as it was: no bug is modified, no history row is
inserted and no notification is sent. -/
theorem updateBug_not_found (env : Env) (id : Int) (body : Body) (user_id : Int) (w : World)
    (habsent : ∀ b ∈ w.bugs, b.id ≠ id) :
    response (updateBug env id body user_id w) = .error 404 "Bug not found"
      ∧ world (updateBug env id body user_id w) = w
      ∧ (world (updateBug env id body user_id w)).bugs = w.bugs
      ∧ (world (updateBug env id body user_id w)).bug_history = w.bug_history
      ∧ (world (updateBug env id body user_id w)).sent = w.sent := by
  have hsel : selectBug w id = [] := by
    unfold selectBug
    rw [List.filter_eq_nil_iff]
    intro b hb h
    exact habsent b hb (by simpa using h)
  have h : updateBug env id body user_id w = (w, .error 404 "Bug not found") := by
    unfold updateBug
    simp [hsel]
  simp [h]

/-- Witness of C14: the id 99999 of the test, on the world of the fixtures. -/
theorem updateBug_not_found_witness :
    response (updateBug Example.env 99999 Example.statusPatch 2 Example.world)
        = .error 404 "Bug not found"
      ∧ world (updateBug Example.env 99999 Example.statusPatch 2 Example.world) = Example.world
      ∧ (world (updateBug Example.env 99999 Example.statusPatch 2 Example.world)).bugs
        = Example.world.bugs
      ∧ (world (updateBug Example.env 99999 Example.statusPatch 2 Example.world)).bug_history
        = Example.world.bug_history
      ∧ (world (updateBug Example.env 99999 Example.statusPatch 2 Example.world)).sent
        = Example.world.sent :=
  updateBug_not_found Example.env 99999 Example.statusPatch 2 Example.world (by decide)

/-- C15, counterexample: the patch `assigned_to: null` on a bug assigned to user 2 inserts a
history row whose new value is the empty string, while the patch value stringified is `null`. -/
theorem updateBug_history_null_logged_empty :
    (world (updateBug Example.env 1 Example.unassignPatch 2 Example.assignedWorld)).bug_history
        = [{ bug_id := 1, user_id := 2, field_changed := "assigned_to",
             old_value := "2", new_value := "" }]
      ∧ (Example.unassignPatch.get "assigned_to").toJSString Example.env.dateString = "null" := by
  decide

/-- C15, amended: every history row `updateBug` inserts carries the id of the updated bug and
of the acting user and names a key of the patch whose value differs from the pre-update
snapshot's; its old value is the snapshot's value stringified, or the empty string when that
value is falsy (null, absent, 0 or the empty string), and its new value is the patch value
stringified, or the empty string when the patch value is falsy (null or 0). -/
theorem updateBug_history_rows (env : Env) (id : Int) (body : Body) (user_id : Int)
    (w : World) (current : Bug) (rest : List Bug)
    (hcur : selectBug w id = current :: rest)
    (hrec : ∃ f ∈ updateBug.fields, body.get f ≠ .undefined) :
    ∃ added : List HistoryRow,
      (world (updateBug env id body user_id w)).bug_history = w.bug_history ++ added
      ∧ ∀ r ∈ added,
          r.bug_id = id ∧ r.user_id = user_id
          ∧ r.field_changed ∈ Object.keys body
          ∧ (current.get r.field_changed).strictNe (body.get r.field_changed) = true
          ∧ r.old_value
              = (if (current.get r.field_changed).truthy = true
                  then (current.get r.field_changed).toJSString env.dateString else "")
          ∧ r.new_value
              = (if (body.get r.field_changed).truthy = true
                  then (body.get r.field_changed).toJSString env.dateString else "")
          ∧ (current.get r.field_changed = .null ∨ current.get r.field_changed = .undefined
              → r.old_value = "")
          ∧ (∀ s : String, s ≠ "" → current.get r.field_changed = .str s → r.old_value = s)
          ∧ (∀ s : String, s ≠ "" → body.get r.field_changed = .str s → r.new_value = s)
          ∧ (∀ n : Int, n ≠ 0 → body.get r.field_changed = .num n → r.new_value = toString n)
          ∧ (body.get r.field_changed = .null ∨ body.get r.field_changed = .num 0
              → r.new_value = "") := by
  have hup := updates_ne_nil body hrec
  refine ⟨_, updateBug_history env id body user_id w current rest hcur hup, ?_⟩
  intro r hr
  obtain ⟨f, hf, rfl⟩ := List.mem_map.mp hr
  obtain ⟨hkey, hne⟩ := List.mem_filter.mp hf
  have hold := JSValue.or_empty_toJSString env.dateString (current.get f)
  have hnew := JSValue.or_empty_toJSString env.dateString (body.get f)
  refine ⟨rfl, rfl, hkey, hne, hold, hnew, ?_, ?_, ?_, ?_, ?_⟩
  · intro h
    have h' : current.get f = .null ∨ current.get f = .undefined := h
    show ((current.get f).or (.str "")).toJSString env.dateString = ""
    rw [hold]
    rcases h' with h' | h' <;> simp [h', JSValue.truthy]
  · intro s hs h
    have h' : current.get f = .str s := h
    show ((current.get f).or (.str "")).toJSString env.dateString = s
    rw [hold, h']
    simp [JSValue.truthy, JSValue.toJSString, hs]
  · intro s hs h
    have h' : body.get f = .str s := h
    show ((body.get f).or (.str "")).toJSString env.dateString = s
    rw [hnew, h']
    simp [JSValue.truthy, JSValue.toJSString, hs]
  · intro n hn h
    have h' : body.get f = .num n := h
    show ((body.get f).or (.str "")).toJSString env.dateString = toString n
    rw [hnew, h']
    simp [JSValue.truthy, JSValue.toJSString, hn]
  · intro h
    have h' : body.get f = .null ∨ body.get f = .num 0 := h
    show ((body.get f).or (.str "")).toJSString env.dateString = ""
    rw [hnew]
    rcases h' with h' | h' <;> simp [h', JSValue.truthy]

/-- Witness of the amended C15: the patch that unassigns the assigned bug. -/
theorem updateBug_history_rows_witness :
    ∃ added : List HistoryRow,
      (world (updateBug Example.env 1 Example.unassignPatch 2 Example.assignedWorld)).bug_history
        = Example.assignedWorld.bug_history ++ added
      ∧ ∀ r ∈ added,
          r.bug_id = 1 ∧ r.user_id = 2
          ∧ r.field_changed ∈ Object.keys Example.unassignPatch
          ∧ (Example.assignedBug.get r.field_changed).strictNe
              (Example.unassignPatch.get r.field_changed) = true
          ∧ r.old_value
              = (if (Example.assignedBug.get r.field_changed).truthy = true
                  then (Example.assignedBug.get r.field_changed).toJSString
                    Example.env.dateString else "")
          ∧ r.new_value
              = (if (Example.unassignPatch.get r.field_changed).truthy = true
                  then (Example.unassignPatch.get r.field_changed).toJSString
                    Example.env.dateString else "")
          ∧ (Example.assignedBug.get r.field_changed = .null
              ∨ Example.assignedBug.get r.field_changed = .undefined → r.old_value = "")
          ∧ (∀ s : String, s ≠ "" → Example.assignedBug.get r.field_changed = .str s
              → r.old_value = s)
          ∧ (∀ s : String, s ≠ "" → Example.unassignPatch.get r.field_changed = .str s
              → r.new_value = s)
          ∧ (∀ n : Int, n ≠ 0 → Example.unassignPatch.get r.field_changed = .num n
              → r.new_value = toString n)
          ∧ (Example.unassignPatch.get r.field_changed = .null
              ∨ Example.unassignPatch.get r.field_changed = .num 0 → r.new_value = "") :=
  updateBug_history_rows Example.env 1 Example.unassignPatch 2 Example.assignedWorld
    Example.assignedBug [] (by decide) ⟨"assigned_to", by decide, by decide⟩

/-- C18: the rows of `getSLAViolations` are ordered by `hours_open` descending: every row has
`hours_open` at least that of every later row, in particular of the next one; and the
`hours_open` of a row is the whole-hour age of its bug, the number the membership test compares
with 24 and 48. -/
theorem getSLAViolations_ordered (env : Env) (w : World) :
    List.Pairwise (fun a b : SLARow => b.hours_open ≤ a.hours_open)
        (getSLAViolations.results env w)
      ∧ List.Chain' (fun a b : SLARow => b.hours_open ≤ a.hours_open)
        (getSLAViolations.results env w)
      ∧ (∀ r ∈ getSLAViolations.results env w,
          r.hours_open = (env.now - r.bug.created_at).tdiv 3600
          ∧ ((r.bug.priority = "critical" ∧ r.hours_open > 24)
            ∨ (r.bug.priority = "high" ∧ r.hours_open > 48))) := by
  have hsorted : List.Sorted SLARow.before (getSLAViolations.results env w) :=
    List.sorted_insertionSort SLARow.before _
  refine ⟨hsorted, List.Pairwise.chain' hsorted, ?_⟩
  intro r hr
  have hr' := (List.mem_insertionSort SLARow.before).mp hr
  obtain ⟨hj, hc⟩ := List.mem_filter.mp hr'
  obtain ⟨_, hh⟩ := mem_joined_hours env w r hj
  have hcond := (condition_iff env r.bug).mp hc
  refine ⟨hh, ?_⟩
  rw [hh]
  exact hcond.2

/-- Witness of C18: at hour 73, a critical bug created at hour 0 and a high bug created at hour
20 are reported oldest first, with 73 and 53 hours. -/
theorem getSLAViolations_ordered_witness :
    (getSLAViolations.results Example.lateEnv Example.slaWorld).map
        (fun r => (r.bug.id, r.hours_open)) = [(2, 73), (1, 53)]
      ∧ List.Chain' (fun a b : SLARow => b.hours_open ≤ a.hours_open)
          (getSLAViolations.results Example.lateEnv Example.slaWorld) :=
  ⟨by decide, (getSLAViolations_ordered Example.lateEnv Example.slaWorld).2.1⟩

/-- C16, counterexample: the query `?page=1000000000000000000001&limit=1` on five bugs. The
positions `(p-1)*n` to `p*n-1` lie far beyond the list, yet the offset `(page - 1) * limit` is
the number `1e21`, `parseInt` reads `1` from its string `1e+21`, and the call returns the
second-newest bug. -/
theorem getAllBugs_page_beyond_safe :
    (getAllBugs.matching Example.hugePage Example.listWorld).map (fun b => b.id) = [2, 5, 3, 4, 1]
      ∧ ((getAllBugs.matching Example.hugePage Example.listWorld).drop
          (((10 ^ 21 + 1 - 1) * 1 : Int).toNat)).take (1 : Int).toNat = []
      ∧ getAllBugs.offset Example.hugePage = 10 ^ 21
      ∧ parseIntNumber (getAllBugs.offset Example.hugePage) = 1
      ∧ (getAllBugs.bugs Example.hugePage Example.listWorld).map (fun r => r.bug.id) = [5] := by
  set_option maxRecDepth 100000 in decide

/-- C16, amended: with distinct user ids, for a page `p` of at least 1 and a page size `n` of at
least 1 (1 and 10 when the query has none) such that `p`, `n` and `(p-1)*n` are at most
`2^53 - 1`, the integers JavaScript computes exactly, the bugs `getAllBugs` returns are the
elements at the positions `(p-1)*n` to `p*n-1` of the list of the matching bugs sorted by created
timestamp descending; a bug matches when it equals every supplied filter exactly: its status
and its priority are the strings of the query, its assignee is the id the query names (a
filter is supplied when its value is not empty, and the assignee filter is a decimal numeral).
When the created timestamps of the matching bugs are distinct, that sorted list is the only
one. -/
theorem getAllBugs_page (q : BugsQuery) (w : World) (p n : Int)
    (hkey : (w.users.map fun u => u.id).Nodup)
    (hpage : q.page.getD 1 = p) (hlimit : q.limit.getD 10 = n) (hp : 1 ≤ p) (hn : 1 ≤ n)
    (hpsafe : p ≤ maxSafeInteger) (hnsafe : n ≤ maxSafeInteger)
    (hsafe : (p - 1) * n ≤ maxSafeInteger) :
    (∃ body : BugsPage, getAllBugs q w = .ok 200 body ∧ body.bugs = getAllBugs.bugs q w
        ∧ body.pagination.page = p ∧ body.pagination.limit = n)
      ∧ (getAllBugs.bugs q w).map (fun r => r.bug)
          = ((getAllBugs.matching q w).drop ((p - 1) * n).toNat).take n.toNat
      ∧ ((((p - 1) * n).toNat : Int) = (p - 1) * n ∧ ((n.toNat : Nat) : Int) = n)
      ∧ (∀ i : Nat, (i : Int) < n →
          ((getAllBugs.bugs q w).map fun r => r.bug)[i]?
            = (getAllBugs.matching q w)[((p - 1) * n).toNat + i]?)
      ∧ (getAllBugs.bugs q w).length ≤ n.toNat
      ∧ List.Pairwise (fun a b : Bug => b.created_at ≤ a.created_at) (getAllBugs.matching q w)
      ∧ List.Perm (getAllBugs.matching q w) (w.bugs.filter (getAllBugs.condition q))
      ∧ (List.Pairwise (fun a b : Bug => a.created_at ≠ b.created_at)
            (w.bugs.filter (getAllBugs.condition q)) →
          ∀ l : List Bug, List.Pairwise (fun a b : Bug => b.created_at ≤ a.created_at) l →
            List.Perm l (w.bugs.filter (getAllBugs.condition q)) → l = getAllBugs.matching q w)
      ∧ ((∀ s, q.assigned_to = some s → s ≠ "" → (decimalInteger s).isSome = true) →
          ∀ b : Bug, getAllBugs.condition q b = true ↔
            (∀ s, q.status = some s → s ≠ "" → b.status = s)
              ∧ (∀ s, q.priority = some s → s ≠ "" → b.priority = s)
              ∧ (∀ s, q.assigned_to = some s → s ≠ "" →
                  ∃ a, decimalInteger s = some a ∧ b.assigned_to = some a))
      ∧ (q.page = none → p = 1) ∧ (q.limit = none → n = 10) := by
  obtain ⟨hoff, hlim⟩ := getAllBugs_offset_of_safe q p n hpage hlimit hp hn hpsafe hnsafe hsafe
  have hbugs := getAllBugs_bugs_bug q w hkey
  rw [hoff, hlim] at hbugs
  have hsorted : List.Pairwise (fun a b : Bug => b.created_at ≤ a.created_at)
      (getAllBugs.matching q w) := List.sorted_insertionSort Bug.newerFirst _
  have hperm : List.Perm (getAllBugs.matching q w) (w.bugs.filter (getAllBugs.condition q)) :=
    List.perm_insertionSort Bug.newerFirst _
  have hunique : List.Pairwise (fun a b : Bug => a.created_at ≠ b.created_at)
        (w.bugs.filter (getAllBugs.condition q)) →
      ∀ l : List Bug, List.Pairwise (fun a b : Bug => b.created_at ≤ a.created_at) l →
        List.Perm l (w.bugs.filter (getAllBugs.condition q)) → l = getAllBugs.matching q w := by
    intro hdist l hl hlperm
    exact newest_first_unique l _ hl hsorted (hlperm.trans hperm.symm)
      (hlperm.symm.pairwise hdist fun h => Ne.symm h)
  have hbody : ∃ body : BugsPage, getAllBugs q w = .ok 200 body
      ∧ body.bugs = getAllBugs.bugs q w
      ∧ body.pagination.page = p ∧ body.pagination.limit = n := by
    refine ⟨_, rfl, rfl, ?_, ?_⟩
    · show toNumber (q.page.getD 1) = p
      rw [hpage]
      exact toNumber_of_safe p (by omega) hpsafe
    · show toNumber (q.limit.getD 10) = n
      exact hlim
  refine ⟨hbody, hbugs, ⟨?_, ?_⟩, ?_, ?_, hsorted, hperm, hunique,
    fun _ => getAllBugs_condition_iff q, ?_, ?_⟩
  · exact Int.toNat_of_nonneg (Int.mul_nonneg (by omega) (by omega))
  · exact Int.toNat_of_nonneg (by omega)
  · intro i hi
    rw [hbugs, List.getElem?_take, List.getElem?_drop]
    have : i < n.toNat := by omega
    simp [this]
  · have := congrArg List.length hbugs
    rw [List.length_map] at this
    rw [this]
    exact List.length_take_le _ _
  · intro h
    rw [h] at hpage
    exact hpage.symm
  · intro h
    rw [h] at hlimit
    exact hlimit.symm

/-- Witness of the amended C16: page 2 of size 2 of the open bugs holds the third and fourth
newest. -/
theorem getAllBugs_page_witness :
    (getAllBugs.bugs Example.openPage2 Example.listWorld).map (fun r => r.bug)
      = ((getAllBugs.matching Example.openPage2 Example.listWorld).drop
          ((2 - 1) * 2 : Int).toNat).take (2 : Int).toNat :=
  (getAllBugs_page Example.openPage2 Example.listWorld 2 2 (by decide) (by decide) (by decide)
    (by decide) (by decide) (by decide) (by decide) (by decide)).2.1

/-- C19, counterexample: five bugs in pages of 1 make 5 pages, and page 1000000000000000000001
lies beyond them; yet its offset is the number `1e21`, which `parseInt` reads as 1, and the page
holds the second-newest bug. -/
theorem getAllBugs_page_after_last_not_empty :
    getAllBugs.total Example.hugePage Example.listWorld = 5
      ∧ mathCeilDiv (getAllBugs.total Example.hugePage Example.listWorld) 1 = 5
      ∧ Example.hugePage.page = some (10 ^ 21 + 1)
      ∧ (getAllBugs.bugs Example.hugePage Example.listWorld).map (fun r => r.bug.id) = [5] := by
  set_option maxRecDepth 100000 in decide

/-- C19, amended: with distinct user ids, a page size `n` from 1 to `2^53 - 1` and at most
`2^53 - 1` matching bugs, the pagination metadata of `getAllBugs` agrees with its pages, where
a page is a `p` of at least 1 (1 when the query has none) with `p` and `(p-1)*n` at most
`2^53 - 1`, the integers JavaScript computes exactly. The response of every page carries that
page, `n`, `total` and `pages`; `total` is the number of bugs matching the filters, whatever the
page and the limit; `pages` is the ceiling of `total / n`; the pages 1 to `pages`, glued in
order, are the matching bugs sorted by created timestamp descending, so every matching bug is
on exactly one page; no page has more than `n` bugs; and every page after `pages` is empty. -/
theorem getAllBugs_pagination (q : BugsQuery) (w : World) (n : Int)
    (hkey : (w.users.map fun u => u.id).Nodup)
    (hlimit : q.limit.getD 10 = n) (hn : 1 ≤ n) (hnsafe : n ≤ maxSafeInteger)
    (htotal : getAllBugs.total q w ≤ maxSafeInteger) :
    (∀ p : Option Int,
        (∀ k, p = some k → 1 ≤ k ∧ k ≤ maxSafeInteger ∧ (k - 1) * n ≤ maxSafeInteger) →
        getAllBugs { q with page := p } w
          = .ok 200
              { bugs := getAllBugs.bugs { q with page := p } w
                pagination :=
                  { page := p.getD 1, limit := n, total := getAllBugs.total q w
                    pages := mathCeilDiv (getAllBugs.total q w) n } })
      ∧ getAllBugs.total q w = ((w.bugs.filter (getAllBugs.condition q)).length : Int)
      ∧ (∀ (page limit : Option Int),
          getAllBugs.total { q with page := page, limit := limit } w = getAllBugs.total q w)
      ∧ (getAllBugs.total q w ≤ mathCeilDiv (getAllBugs.total q w) n * n
          ∧ mathCeilDiv (getAllBugs.total q w) n * n < getAllBugs.total q w + n)
      ∧ (List.range (mathCeilDiv (getAllBugs.total q w) n).toNat).flatMap
            (fun i => (getAllBugs.bugs { q with page := some ((i : Int) + 1) } w).map
              fun r => r.bug)
          = getAllBugs.matching q w
      ∧ List.Perm
          ((List.range (mathCeilDiv (getAllBugs.total q w) n).toNat).flatMap
            (fun i => (getAllBugs.bugs { q with page := some ((i : Int) + 1) } w).map
              fun r => r.bug))
          (w.bugs.filter (getAllBugs.condition q))
      ∧ (∀ p : Option Int,
          (∀ k, p = some k → 1 ≤ k ∧ k ≤ maxSafeInteger ∧ (k - 1) * n ≤ maxSafeInteger) →
          (getAllBugs.bugs { q with page := p } w).length ≤ n.toNat)
      ∧ (∀ p : Int, mathCeilDiv (getAllBugs.total q w) n < p → p ≤ maxSafeInteger →
          (p - 1) * n ≤ maxSafeInteger →
          getAllBugs.bugs { q with page := some p } w = []) := by
  obtain ⟨N, hN⟩ := Int.eq_ofNat_of_zero_le (by omega : 0 ≤ n)
  subst hN
  have hNpos : 1 ≤ N := by omega
  have hlim : toNumber (N : Int) = (N : Int) := toNumber_of_safe _ (by omega) hnsafe
  have hbound := mathCeilDiv_bounds (getAllBugs.total q w) (N : Int) (by omega)
  have htotal0 : 0 ≤ getAllBugs.total q w := by
    unfold getAllBugs.total
    exact Int.ofNat_nonneg _
  have hpages0 : 0 ≤ mathCeilDiv (getAllBugs.total q w) (N : Int) := by
    by_contra hneg
    have h1 : mathCeilDiv (getAllBugs.total q w) (N : Int) ≤ -1 := by omega
    have h2 : mathCeilDiv (getAllBugs.total q w) (N : Int) * (N : Int) ≤ -1 * (N : Int) :=
      Int.mul_le_mul_of_nonneg_right h1 (by omega)
    omega
  obtain ⟨K, hK⟩ := Int.eq_ofNat_of_zero_le hpages0
  have hlen : (getAllBugs.matching q w).length ≤ K * N := by
    have h1 := getAllBugs_matching_length q w
    have h2 := hbound.1
    rw [hK, ← h1] at h2
    exact_mod_cast h2
  have hlast : ∀ i : Nat, i < K → ((i : Int) * (N : Int) < getAllBugs.total q w) := by
    intro i hi
    have h1 : ((i : Int) + 1) * (N : Int) ≤ (K : Int) * (N : Int) :=
      Int.mul_le_mul_of_nonneg_right (by omega) (by omega)
    have h2 := hbound.2
    rw [hK] at h2
    have h3 : ((i : Int) + 1) * (N : Int) = (i : Int) * (N : Int) + (N : Int) := by ring
    omega
  have hconcat : (List.range (mathCeilDiv (getAllBugs.total q w) (N : Int)).toNat).flatMap
        (fun i => (getAllBugs.bugs { q with page := some ((i : Int) + 1) } w).map
          fun r => r.bug)
      = getAllBugs.matching q w := by
    rw [hK, Int.toNat_ofNat]
    have hpage : ∀ i ∈ List.range K,
        (getAllBugs.bugs { q with page := some ((i : Int) + 1) } w).map (fun r => r.bug)
          = ((getAllBugs.matching q w).drop (i * N)).take N := by
      intro i hi
      have hiK : i < K := List.mem_range.mp hi
      have h1 := hlast i hiK
      have h2 : (i : Int) ≤ (i : Int) * (N : Int) := by
        have := Int.mul_le_mul_of_nonneg_left (by omega : (1 : Int) ≤ (N : Int))
          (by omega : (0 : Int) ≤ (i : Int))
        simpa using this
      have h3 : ((i : Int) + 1 - 1) * (N : Int) = (i : Int) * (N : Int) := by ring
      rw [getAllBugs_page_bugs q w ((i : Int) + 1) N hkey hlimit (by omega) hNpos (by omega)
        hnsafe (by omega)]
      simp
    rw [flatMap_eq_of_mem _ _ _ hpage]
    exact flatMap_pages N K _ hlen
  refine ⟨?_, rfl, fun _ _ => rfl, hbound, hconcat, ?_, ?_, ?_⟩
  · intro p hp
    have hpnum : toNumber (p.getD 1) = p.getD 1 := by
      cases p with
      | none => exact toNumber_of_safe 1 (by decide) (by decide)
      | some k =>
        have hk := hp k rfl
        exact toNumber_of_safe k (by omega) hk.2.1
    simp only [getAllBugs]
    rw [show ({ q with page := p } : BugsQuery).limit.getD 10 = (N : Int) from hlimit, hlim,
      show ({ q with page := p } : BugsQuery).page.getD 1 = p.getD 1 from rfl, hpnum]
    rfl
  · rw [hconcat]
    exact List.perm_insertionSort Bug.newerFirst _
  · intro p _
    unfold getAllBugs.bugs
    rw [show ({ q with page := p } : BugsQuery).limit.getD 10 = (N : Int) from hlimit, hlim]
    exact List.length_take_le _ _
  · intro p hp hpsafe hsafe
    have hp1 : 1 ≤ p := by omega
    have hmap := getAllBugs_page_bugs q w p N hkey hlimit hp1 hNpos hpsafe hnsafe hsafe
    have hdrop : (getAllBugs.matching q w).drop ((p - 1).toNat * N) = [] := by
      apply List.drop_eq_nil_of_le
      have h1 : K ≤ (p - 1).toNat := by omega
      exact Nat.le_trans hlen (Nat.mul_le_mul_right N h1)
    rw [hdrop, List.take_nil] at hmap
    exact List.map_eq_nil_iff.mp hmap

/-- Witness of the amended C19: four open bugs in pages of 2 make two pages, which glue to the
sorted list. -/
theorem getAllBugs_pagination_witness :
    (List.range (mathCeilDiv (getAllBugs.total Example.openPage2 Example.listWorld) 2).toNat).flatMap
        (fun i => (getAllBugs.bugs { Example.openPage2 with page := some ((i : Int) + 1) }
          Example.listWorld).map fun r => r.bug)
      = getAllBugs.matching Example.openPage2 Example.listWorld :=
  (getAllBugs_pagination Example.openPage2 Example.listWorld 2 (by decide) (by decide)
    (by decide) (by decide) (by decide)).2.2.2.2.1

/-- C17: when no bug is created after `now`, `getBugsPerDay` with a window of `d` days (30 when
the query has none) counts exactly the bugs created from `now` minus `d` days on, the boundary
included: there is one row per date on which such a bug was created, and no other row; the
count of a row is the number of those bugs created on its date, its critical and high counts
are the numbers of them with that priority, and the counts add up to the number of bugs in the
window; the rows are ordered by date strictly descending. -/
theorem getBugsPerDay_rows (env : Env) (days : Option Int) (w : World) (d : Int)
    (hdays : days.getD 30 = d)
    (hpast : ∀ b ∈ w.bugs, b.created_at ≤ env.now) :
    getBugsPerDay env days w = .ok 200 (getBugsPerDay.results env days w)
      ∧ (∀ x : Int, x ∈ (getBugsPerDay.results env days w).map (fun r => r.date) ↔
          ∃ b ∈ w.bugs, env.now - d * 86400 ≤ b.created_at ∧ b.created_at ≤ env.now
            ∧ b.created_at / 86400 = x)
      ∧ (∀ r ∈ getBugsPerDay.results env days w,
          r.count = (w.bugs.filter fun b =>
              decide ((env.now - d * 86400 ≤ b.created_at ∧ b.created_at ≤ env.now)
                ∧ b.created_at / 86400 = r.date)).length
          ∧ r.critical_count = (w.bugs.filter fun b =>
              decide (((env.now - d * 86400 ≤ b.created_at ∧ b.created_at ≤ env.now)
                ∧ b.created_at / 86400 = r.date) ∧ b.priority = "critical")).length
          ∧ r.high_count = (w.bugs.filter fun b =>
              decide (((env.now - d * 86400 ≤ b.created_at ∧ b.created_at ≤ env.now)
                ∧ b.created_at / 86400 = r.date) ∧ b.priority = "high")).length)
      ∧ ((getBugsPerDay.results env days w).map fun r => r.count).sum
          = (w.bugs.filter fun b =>
              decide (env.now - d * 86400 ≤ b.created_at ∧ b.created_at ≤ env.now)).length
      ∧ List.Pairwise (fun a b : DayRow => b.date < a.date) (getBugsPerDay.results env days w)
      ∧ (days = none → d = 30) := by
  have hcond : ∀ b ∈ w.bugs, getBugsPerDay.condition env (days.getD 30) b
      = decide (env.now - d * 86400 ≤ b.created_at ∧ b.created_at ≤ env.now) := by
    intro b hb
    have := hpast b hb
    rw [hdays]
    simp [getBugsPerDay.condition, this]
  have hfilter : w.bugs.filter (getBugsPerDay.condition env (days.getD 30))
      = w.bugs.filter fun b =>
          decide (env.now - d * 86400 ≤ b.created_at ∧ b.created_at ≤ env.now) :=
    List.filter_congr hcond
  refine ⟨rfl, ?_, ?_, ?_, ?_, ?_⟩
  · intro x
    rw [map_date_results, List.mem_insertionSort, List.mem_dedup, hfilter]
    simp only [List.mem_map, List.mem_filter, decide_eq_true_eq, sqlDate]
    constructor
    · rintro ⟨b, ⟨hb, h1, h2⟩, rfl⟩
      exact ⟨b, hb, h1, h2, rfl⟩
    · rintro ⟨b, hb, h1, h2, rfl⟩
      exact ⟨b, ⟨hb, h1, h2⟩, rfl⟩
  · intro r hr
    have hr' := (List.mem_insertionSort DayRow.before).mp hr
    obtain ⟨x, _, rfl⟩ := List.mem_map.mp hr'
    simp only [getBugsPerDay.group, hfilter, List.filter_filter, sqlDate]
    refine ⟨?_, ?_, ?_⟩
    · congr 1
      apply List.filter_congr
      intro b _
      simp only [Bool.decide_and]
      rw [Bool.and_comm]
    · congr 1
      apply List.filter_congr
      intro b _
      simp only [Bool.decide_and]
      rw [Bool.and_comm, Bool.and_comm (decide (b.created_at / 86400 = x))]
    · congr 1
      apply List.filter_congr
      intro b _
      simp only [Bool.decide_and]
      rw [Bool.and_comm, Bool.and_comm (decide (b.created_at / 86400 = x))]
  · rw [sum_count_results, hfilter]
  · have h := insertionSort_days_strict
      (((w.bugs.filter (getBugsPerDay.condition env (days.getD 30))).map fun b =>
        sqlDate b.created_at).dedup) (List.nodup_dedup _)
    rw [← map_date_results, List.pairwise_map] at h
    exact h
  · intro h
    rw [h] at hdays
    exact hdays.symm

/-- Witness of C17: on day 10 with a window of 7 days, the bugs of the days 9, 10 and 9 are
counted and the bug of day 2 is not. -/
theorem getBugsPerDay_rows_witness :
    getBugsPerDay.results Example.dayEnv (some 7) Example.dayWorld
        = [{ date := 10, count := 1, critical_count := 0, high_count := 1 },
           { date := 9, count := 2, critical_count := 2, high_count := 0 }]
      ∧ List.Pairwise (fun a b : DayRow => b.date < a.date)
          (getBugsPerDay.results Example.dayEnv (some 7) Example.dayWorld) :=
  ⟨by decide, (getBugsPerDay_rows Example.dayEnv (some 7) Example.dayWorld 7 (by decide)
    (by decide)).2.2.2.2.1⟩

end BugTracker
